import Mathlib

/-!
A verification development for a repository of serverless HTTP handlers
(gallery CRUD, journal CRUD, image upload, auth check, rebuild trigger).

JavaScript strings are modelled as `List Char` (sequences of Unicode scalar
values), JSON values as the inductive `JVal`, HTTP fetch responses as
`FetchResp`, and the external calls a handler issues as a trace `List Call`.
Handlers become pure functions from the request event, the environment and
the responses of the external service to a response plus a call trace.
-/
set_option maxHeartbeats 1000000

/-- Characters of a Lean string literal, used to write JS string constants. -/
def S (s : String) : List Char := s.data

/-- `startsWith pat s` holds when `pat` occurs at the beginning of `s`
(the shape of a successful anchored match). -/
def startsWith : List Char → List Char → Bool
  | [], _ => true
  | _ :: _, [] => false
  | p :: ps, c :: cs => p = c && startsWith ps cs

/-! ### JavaScript values

`JVal` covers the values the handlers move around: everything `JSON.parse`
can produce, plus `undefined` (absent object properties).  JSON numbers are
kept as their source lexeme, so no floating-point semantics is needed; the
handlers never do arithmetic on parsed numbers except in one legacy branch,
which is modelled on integer lexemes below. -/
inductive JVal where
  | undefined : JVal
  | null : JVal
  | bool : Bool → JVal
  | num : List Char → JVal
  | str : List Char → JVal
  | arr : List JVal → JVal
  | obj : List (List Char × JVal) → JVal

/-- Value of the last binding of key `k` (later duplicate keys win, as for a
JS object literal built left to right). -/
def lookupLast (fs : List (List Char × JVal)) (k : List Char) : Option JVal :=
  fs.foldl (fun acc kv => if kv.1 = k then some kv.2 else acc) none

/-- Property access `v[k]`: `none` models the TypeError thrown when the base
is `null` or `undefined`; a primitive base yields `undefined` (built-in
properties such as `length` never collide with the handler field names). -/
def getProp : JVal → List Char → Option JVal
  | .undefined, _ => none
  | .null, _ => none
  | .obj fs, k => some ((lookupLast fs k).getD .undefined)
  | _, _ => some .undefined

/-- Property access on a base known not to be `null`/`undefined`. -/
def getPropD (v : JVal) (k : List Char) : JVal :=
  (getProp v k).getD .undefined

/-- Whether a number lexeme denotes zero (all mantissa digits are `0`). -/
def zeroLexeme (lex : List Char) : Bool :=
  (lex.takeWhile (fun c => ¬ (c = 'e' ∨ c = 'E'))).all (fun c => c = '0' ∨ c = '.' ∨ c = '-')

/-- JS truthiness. -/
def jvTruthy : JVal → Bool
  | .undefined => false
  | .null => false
  | .bool b => b
  | .num lex => ! zeroLexeme lex
  | .str s => s ≠ []
  | .arr _ => true
  | .obj _ => true

/-- `a || b` on JS values. -/
def jvOr (a b : JVal) : JVal := if jvTruthy a then a else b

/-- The fields spread by `{...v}`: an object's own fields.  For primitives
the spread contributes nothing; spreading of string/array index properties
is outside the model (no handler spreads a non-object). -/
def jvFields : JVal → List (List Char × JVal)
  | .obj fs => fs
  | _ => []

/-- `{...r, k1: v1, k2: v2}`. -/
def jvSpread2 (r : JVal) (k1 : List Char) (v1 : JVal) (k2 : List Char) (v2 : JVal) : JVal :=
  .obj (jvFields r ++ [(k1, v1), (k2, v2)])

/-- Array destructuring `const [x] = v` uses the iterator protocol: arrays
iterate their elements and strings their characters; for any other value it
throws, modelled by `none`. -/
def jvIterate : JVal → Option (List JVal)
  | .arr xs => some xs
  | .str s => some (s.map (fun c => .str [c]))
  | _ => none

/-- Whether a value is a string (the shape of `typeof v === "string"`). -/
def jvIsStr : JVal → Bool
  | .str _ => true
  | _ => false

/-- The characters of a string value, `none` otherwise. -/
def jvStrVal : JVal → Option (List Char)
  | .str s => some s
  | _ => none

/-- Whether a value is `null` (destructuring it would throw). -/
def jvIsNull : JVal → Bool
  | .null => true
  | _ => false

mutual

/-- `String(v)` / `.toString()`.  Number lexemes are returned verbatim (the
handlers only stringify values that round-trip, such as integer ids). -/
def jvToString : JVal → List Char
  | .undefined => S "undefined"
  | .null => S "null"
  | .bool b => if b then S "true" else S "false"
  | .num lex => lex
  | .str s => s
  | .obj _ => S "[object Object]"
  | .arr xs => jvArrJoin xs

/-- `Array.prototype.toString`: elements joined by commas, with `null` and
`undefined` elements contributing the empty string. -/
def jvArrJoin : List JVal → List Char
  | [] => []
  | [v] => jvElemString v
  | v :: rest => jvElemString v ++ ',' :: jvArrJoin rest

def jvElemString : JVal → List Char
  | .null => []
  | .undefined => []
  | v => jvToString v

end

/-! ### `JSON.parse`

A recursive-descent parser for the JSON grammar, producing a `JVal`.
Failure (`none`) models the thrown SyntaxError.  The fuel argument only
serves termination; `jsParse` supplies one unit per input character plus
one, which is enough since every recursive call follows the consumption of
at least one character. -/
def jsonWS (c : Char) : Bool := c = ' ' ∨ c = '\t' ∨ c = '\n' ∨ c = '\r'

def skipWS (s : List Char) : List Char := s.dropWhile jsonWS

def hexVal (c : Char) : Option Nat :=
  if '0' ≤ c ∧ c ≤ '9' then some (c.toNat - '0'.toNat)
  else if 'a' ≤ c ∧ c ≤ 'f' then some (c.toNat - 'a'.toNat + 10)
  else if 'A' ≤ c ∧ c ≤ 'F' then some (c.toNat - 'A'.toNat + 10)
  else none

/-- Parse the body of a JSON string after the opening quote, returning the
decoded characters and the input following the closing quote.  A `\uXXXX`
escape is a UTF-16 code unit; a high/low surrogate escape pair is combined
into one scalar value.  Lone surrogate escapes (which JS would keep as an
ill-formed string) have no `Char` counterpart and are outside the model. -/
def parseJStrBody : Nat → List Char → Option (List Char × List Char)
  | 0, _ => none
  | _ + 1, [] => none
  | fuel + 1, c :: rest =>
    if c = '"' then some ([], rest)
    else if c = '\\' then
      match rest with
      | [] => none
      | e :: rest2 =>
        if e = '"' ∨ e = '\\' ∨ e = '/' then
          (parseJStrBody fuel rest2).map (fun p => (e :: p.1, p.2))
        else if e = 'b' then (parseJStrBody fuel rest2).map (fun p => ('\x08' :: p.1, p.2))
        else if e = 'f' then (parseJStrBody fuel rest2).map (fun p => ('\x0c' :: p.1, p.2))
        else if e = 'n' then (parseJStrBody fuel rest2).map (fun p => ('\n' :: p.1, p.2))
        else if e = 'r' then (parseJStrBody fuel rest2).map (fun p => ('\r' :: p.1, p.2))
        else if e = 't' then (parseJStrBody fuel rest2).map (fun p => ('\t' :: p.1, p.2))
        else if e = 'u' then
          match rest2 with
          | h1 :: h2 :: h3 :: h4 :: rest3 =>
            match hexVal h1, hexVal h2, hexVal h3, hexVal h4 with
            | some a, some b, some c2, some d =>
              let u := ((a * 16 + b) * 16 + c2) * 16 + d
              if 0xD800 ≤ u ∧ u < 0xDC00 then
                match rest3 with
                | '\\' :: 'u' :: g1 :: g2 :: g3 :: g4 :: rest4 =>
                  match hexVal g1, hexVal g2, hexVal g3, hexVal g4 with
                  | some a2, some b2, some c3, some d2 =>
                    let u2 := ((a2 * 16 + b2) * 16 + c3) * 16 + d2
                    if 0xDC00 ≤ u2 ∧ u2 < 0xE000 then
                      (parseJStrBody fuel rest4).map
                        (fun p => (Char.ofNat (0x10000 + (u - 0xD800) * 0x400 + (u2 - 0xDC00)) :: p.1, p.2))
                    else none
                  | _, _, _, _ => none
                | _ => none
              else if 0xDC00 ≤ u ∧ u < 0xE000 then none
              else (parseJStrBody fuel rest3).map (fun p => (Char.ofNat u :: p.1, p.2))
            | _, _, _, _ => none
          | _ => none
        else none
    else if c.toNat < 0x20 then none
    else (parseJStrBody fuel rest).map (fun p => (c :: p.1, p.2))

def isDigit (c : Char) : Bool := '0' ≤ c ∧ c ≤ '9'

/-- Lex a JSON number, returning its lexeme and the remaining input. -/
def parseJNum (s : List Char) : Option (List Char × List Char) :=
  let (sign, s1) := match s with
    | '-' :: t => ((['-'] : List Char), t)
    | _ => ([], s)
  match s1 with
  | [] => none
  | c :: _ =>
    if ¬ isDigit c then none
    else
      let intPart := if c = '0' then ['0'] else s1.takeWhile isDigit
      let s2 := s1.drop intPart.length
      let (fracPart, s3) := match s2 with
        | '.' :: t =>
          let ds := t.takeWhile isDigit
          if ds = [] then ([], s2) else ('.' :: ds, t.drop ds.length)
        | _ => ([], s2)
      if s2 ≠ [] ∧ fracPart = [] ∧ s2.headD ' ' = '.' then none
      else
        let (expPart, s4) := match s3 with
          | e :: t =>
            if e = 'e' ∨ e = 'E' then
              let (sg, t2) := match t with
                | '+' :: u => ((['+'] : List Char), u)
                | '-' :: u => ((['-'] : List Char), u)
                | _ => ([], t)
              let ds := t2.takeWhile isDigit
              if ds = [] then (([] : List Char), s3) else (e :: (sg ++ ds), t2.drop ds.length)
            else ([], s3)
          | _ => ([], s3)
        if s3 ≠ [] ∧ expPart = [] ∧ (s3.headD ' ' = 'e' ∨ s3.headD ' ' = 'E') then none
        else some (sign ++ intPart ++ fracPart ++ expPart, s4)

mutual

def parseJVal : Nat → List Char → Option (JVal × List Char)
  | 0, _ => none
  | fuel + 1, s =>
    if startsWith (S "null") s then some (.null, s.drop 4)
    else if startsWith (S "true") s then some (.bool true, s.drop 4)
    else if startsWith (S "false") s then some (.bool false, s.drop 5)
    else
      match s with
      | [] => none
      | c :: rest =>
        if c = '"' then (parseJStrBody fuel rest).map (fun p => (.str p.1, p.2))
        else if c = '[' then parseJArr fuel (skipWS rest)
        else if c = '\x7b' then parseJObj fuel (skipWS rest)
        else (parseJNum s).map (fun p => (.num p.1, p.2))

/-- Elements of an array, the input starting after `[` and whitespace. -/
def parseJArr : Nat → List Char → Option (JVal × List Char)
  | 0, _ => none
  | fuel + 1, s =>
    match s with
    | ']' :: rest => some (.arr [], rest)
    | _ =>
      match parseJVal fuel s with
      | none => none
      | some (v, rest) => parseJArrTail fuel [v] (skipWS rest)

def parseJArrTail : Nat → List JVal → List Char → Option (JVal × List Char)
  | 0, _, _ => none
  | fuel + 1, acc, s =>
    match s with
    | ']' :: rest => some (.arr acc.reverse, rest)
    | ',' :: rest =>
      match parseJVal fuel (skipWS rest) with
      | none => none
      | some (v, rest2) => parseJArrTail fuel (v :: acc) (skipWS rest2)
    | _ => none

/-- Members of an object, the input starting after the opening brace and
whitespace. -/
def parseJObj : Nat → List Char → Option (JVal × List Char)
  | 0, _ => none
  | fuel + 1, s =>
    match s with
    | '\x7d' :: rest => some (.obj [], rest)
    | '"' :: rest =>
      match parseJStrBody fuel rest with
      | none => none
      | some (k, rest2) =>
        match skipWS rest2 with
        | ':' :: rest3 =>
          match parseJVal fuel (skipWS rest3) with
          | none => none
          | some (v, rest4) => parseJObjTail fuel [(k, v)] (skipWS rest4)
        | _ => none
    | _ => none

def parseJObjTail : Nat → List (List Char × JVal) → List Char → Option (JVal × List Char)
  | 0, _, _ => none
  | fuel + 1, acc, s =>
    match s with
    | '\x7d' :: rest => some (.obj acc.reverse, rest)
    | ',' :: rest =>
      match skipWS rest with
      | '"' :: rest2 =>
        match parseJStrBody fuel rest2 with
        | none => none
        | some (k, rest3) =>
          match skipWS rest3 with
          | ':' :: rest4 =>
            match parseJVal fuel (skipWS rest4) with
            | none => none
            | some (v, rest5) => parseJObjTail fuel ((k, v) :: acc) (skipWS rest5)
          | _ => none
      | _ => none
    | _ => none

end

/-- `JSON.parse`: `none` models the thrown SyntaxError. -/
def jsParse (s : List Char) : Option JVal :=
  match parseJVal (s.length + 1) (skipWS s) with
  | none => none
  | some (v, rest) => if skipWS rest = [] then some v else none

/-! ### `encodeURIComponent` / `decodeURIComponent` -/
/-- UTF-8 bytes of a scalar value. -/
def utf8Bytes (c : Char) : List Nat :=
  let n := c.toNat
  if n < 0x80 then [n]
  else if n < 0x800 then [0xC0 + n / 64, 0x80 + n % 64]
  else if n < 0x10000 then [0xE0 + n / 4096, 0x80 + (n / 64) % 64, 0x80 + n % 64]
  else [0xF0 + n / 262144, 0x80 + (n / 4096) % 64, 0x80 + (n / 64) % 64, 0x80 + n % 64]

def hexDigitUpper (n : Nat) : Char :=
  if n < 10 then Char.ofNat ('0'.toNat + n) else Char.ofNat ('A'.toNat + n - 10)

/-- Characters `encodeURIComponent` leaves unescaped. -/
def uriUnreserved (c : Char) : Bool :=
  ('A' ≤ c ∧ c ≤ 'Z') ∨ ('a' ≤ c ∧ c ≤ 'z') ∨ ('0' ≤ c ∧ c ≤ '9') ∨
    c = '-' ∨ c = '_' ∨ c = '.' ∨ c = '!' ∨ c = '~' ∨ c = '*' ∨ c = '\'' ∨ c = '(' ∨ c = ')'

def encodeURIComponent (s : List Char) : List Char :=
  s.flatMap (fun c =>
    if uriUnreserved c then [c]
    else (utf8Bytes c).flatMap (fun b => ['%', hexDigitUpper (b / 16), hexDigitUpper (b % 16)]))

/-- First pass of `decodeURIComponent`: turn each `%XX` escape into a byte,
pass other characters through; `none` models the URIError on a malformed
escape. -/
def percentLex : List Char → Option (List (Char ⊕ Nat))
  | [] => some []
  | c :: t =>
    if c = '%' then
      match t with
      | h1 :: h2 :: t2 =>
        match hexVal h1, hexVal h2 with
        | some a, some b => (percentLex t2).map (fun r => Sum.inr (16 * a + b) :: r)
        | _, _ => none
      | _ => none
    else (percentLex t).map (fun r => Sum.inl c :: r)

def utf8Cont (b : Nat) : Bool := 0x80 ≤ b ∧ b < 0xC0

/-- Second pass of `decodeURIComponent`: assemble escaped bytes into UTF-8
sequences, rejecting (URIError, hence `none`) continuation or overlong lead
bytes, truncated sequences, overlong encodings, surrogates and values past
the last code point. -/
def utf8Assemble : List (Char ⊕ Nat) → Option (List Char)
  | [] => some []
  | Sum.inl c :: t => (utf8Assemble t).map (fun r => c :: r)
  | Sum.inr b :: t =>
    if b < 0x80 then (utf8Assemble t).map (fun r => Char.ofNat b :: r)
    else if b < 0xC2 then none
    else if b < 0xE0 then
      match t with
      | Sum.inr b2 :: t2 =>
        if utf8Cont b2 then (utf8Assemble t2).map (fun r => Char.ofNat ((b - 0xC0) * 64 + (b2 - 0x80)) :: r)
        else none
      | _ => none
    else if b < 0xF0 then
      match t with
      | Sum.inr b2 :: Sum.inr b3 :: t2 =>
        if utf8Cont b2 ∧ utf8Cont b3 then
          let v := (b - 0xE0) * 4096 + (b2 - 0x80) * 64 + (b3 - 0x80)
          if v < 0x800 ∨ (0xD800 ≤ v ∧ v < 0xE000) then none
          else (utf8Assemble t2).map (fun r => Char.ofNat v :: r)
        else none
      | _ => none
    else if b < 0xF5 then
      match t with
      | Sum.inr b2 :: Sum.inr b3 :: Sum.inr b4 :: t2 =>
        if utf8Cont b2 ∧ utf8Cont b3 ∧ utf8Cont b4 then
          let v := (b - 0xF0) * 262144 + (b2 - 0x80) * 4096 + (b3 - 0x80) * 64 + (b4 - 0x80)
          if v < 0x10000 ∨ 0x110000 ≤ v then none
          else (utf8Assemble t2).map (fun r => Char.ofNat v :: r)
        else none
      | _ => none
    else none

/-- `decodeURIComponent`; `none` models the thrown URIError. -/
def decodeURIComponent (s : List Char) : Option (List Char) :=
  (percentLex s).bind utf8Assemble

/-! ### Node base64 decoding

`Buffer.from(payload, "base64")`: six bits per alphabet character
(standard and URL-safe alphabets), emitting a byte whenever eight bits have
accumulated; characters outside the alphabet — whitespace, padding `=` and
anything else — are skipped by the lenient decoder. -/
def b64Val (c : Char) : Option Nat :=
  if 'A' ≤ c ∧ c ≤ 'Z' then some (c.toNat - 'A'.toNat)
  else if 'a' ≤ c ∧ c ≤ 'z' then some (c.toNat - 'a'.toNat + 26)
  else if '0' ≤ c ∧ c ≤ '9' then some (c.toNat - '0'.toNat + 52)
  else if c = '+' ∨ c = '-' then some 62
  else if c = '/' ∨ c = '_' then some 63
  else none

def b64DecodeAux : List Char → Nat → Nat → List Nat
  | [], _, _ => []
  | c :: rest, acc, nbits =>
    match b64Val c with
    | none => b64DecodeAux rest acc nbits
    | some v =>
      let acc2 := acc * 64 + v
      let nbits2 := nbits + 6
      if 8 ≤ nbits2 then
        acc2 / 2 ^ (nbits2 - 8) % 256 :: b64DecodeAux rest (acc2 % 2 ^ (nbits2 - 8)) (nbits2 - 8)
      else b64DecodeAux rest acc2 nbits2

def nodeB64Decode (s : List Char) : List Nat := b64DecodeAux s 0 0

/-! ### Gallery helper functions (`functions/gallery.js`, fetch-based variant) -/
/-- ASCII case mapping used to model `toLowerCase` and the `i` regex flag.
The handlers only compare against ASCII patterns and immediately replace
every character outside `[a-z0-9._-]`, so Unicode simple case mappings
beyond ASCII never influence the modelled behaviour. -/
def asciiLower (c : Char) : Char :=
  if 'A' ≤ c ∧ c ≤ 'Z' then Char.ofNat (c.toNat + 32) else c

/-- The character class `[a-z0-9._-]` of `cleanName`. -/
def goodChar (c : Char) : Bool :=
  ('a' ≤ c ∧ c ≤ 'z') ∨ ('0' ≤ c ∧ c ≤ '9') ∨ c = '.' ∨ c = '_' ∨ c = '-'

/-- `replace(/[^a-z0-9._-]+/g, "-")`: each maximal run of characters outside
the class becomes one hyphen.  The flag records whether a run is open. -/
def replaceBadRuns : Bool → List Char → List Char
  | _, [] => []
  | inRun, c :: rest =>
    if goodChar c then c :: replaceBadRuns false rest
    else if inRun then replaceBadRuns true rest
    else '-' :: replaceBadRuns true rest

/-- The global replacement of each hyphen run `-+` by one hyphen. -/
def collapseHyphens : Bool → List Char → List Char
  | _, [] => []
  | inRun, c :: rest =>
    if c = '-' then
      if inRun then collapseHyphens true rest
      else '-' :: collapseHyphens true rest
    else c :: collapseHyphens false rest

/-- Whether a string starts with a hyphen. -/
def headHyphen (s : List Char) : Bool := s.head? = some '-'

/-- Whether a string ends with a hyphen. -/
def lastHyphen (s : List Char) : Bool := s.getLast? = some '-'

/-- Whether a string is free of two consecutive hyphens. -/
def noDoubleHyphen : List Char → Bool
  | [] => true
  | [_] => true
  | a :: b :: t => !(a = '-' && b = '-') && noDoubleHyphen (b :: t)

/-- Drop a final hyphen (the `-$` alternative). -/
def dropLastHyphen (t : List Char) : List Char :=
  if lastHyphen t then t.dropLast else t

/-- `replace(/^-|-$/g, "")`: remove one hyphen at the start and one at the
end (the `^` anchor can only match once at position zero). -/
def stripEdgeHyphens : List Char → List Char
  | [] => []
  | c :: rest => if c = '-' then dropLastHyphen rest else dropLastHyphen (c :: rest)

/-- `cleanName`: lowercase, replace runs outside `[a-z0-9._-]` with a
hyphen, collapse hyphen runs, trim edge hyphens. -/
def cleanName (s : List Char) : List Char :=
  stripEdgeHyphens (collapseHyphens false (replaceBadRuns false (s.map asciiLower)))

/-- Result of `parseDataUrl`: the declared MIME type and the decoded bytes. -/
structure DataParts where
  contentType : List Char
  buffer : List Nat

/-- Line terminators, which `.` in a regex without the `s` flag never
matches. -/
def isLineTerm (c : Char) : Bool :=
  c = '\n' ∨ c = '\r' ∨ c = Char.ofNat 0x2028 ∨ c = Char.ofNat 0x2029

/-- Case-insensitive anchored match of an ASCII pattern, returning the rest
of the input. -/
def stripCI : List Char → List Char → Option (List Char)
  | [], s => some s
  | _ :: _, [] => none
  | p :: ps, c :: cs => if asciiLower c = p then stripCI ps cs else none

/-- The regex `/^data:([^;]+);base64,(.+)$/i` applied to a string: the MIME
group is everything before the first `;` (which must be nonempty), the rest
must open with `;base64,` case-insensitively, and the payload group must be
nonempty and free of line terminators. -/
def parseDataUrlStr (s : List Char) : Option DataParts :=
  match stripCI (S "data:") s with
  | none => none
  | some r1 =>
    let mime := r1.takeWhile (fun c => c ≠ ';')
    match stripCI (S ";base64,") (r1.dropWhile (fun c => c ≠ ';')) with
    | none => none
    | some payload =>
      if mime ≠ [] ∧ payload ≠ [] ∧ payload.all (fun c => ! isLineTerm c) then
        some ⟨mime, nodeB64Decode payload⟩
      else none

/-- `jvToString` unfolded one constructor step, so that it reduces
definitionally in the scalar cases (the mutual definition above is compiled
by well-founded recursion and does not). -/
def jvToS : JVal → List Char
  | .undefined => S "undefined"
  | .null => S "null"
  | .bool b => if b then S "true" else S "false"
  | .num lex => lex
  | .str s => s
  | .obj fs => jvToString (.obj fs)
  | .arr xs => jvToString (.arr xs)

/-- `parseDataUrl(dataUrl)`: `dataUrl || ""` coerced to a string and matched
against the pattern; `none` models the thrown `Bad image dataUrl` error. -/
def parseDataUrl (dataUrl : JVal) : Option DataParts :=
  parseDataUrlStr (jvToS (jvOr dataUrl (.str [])))

/-- First index at which `pat` occurs in `s` (`String.prototype.indexOf`). -/
def findMarker (pat : List Char) : List Char → Option Nat
  | [] => if startsWith pat [] then some 0 else none
  | c :: t =>
    if startsWith pat (c :: t) then some 0
    else (findMarker pat t).map (fun i => i + 1)

/-- The marker `/storage/v1/object/public/<bucket>/` searched for by
`extractObjectPath`. -/
def markerOf (bucket : List Char) : List Char :=
  S "/storage/v1/object/public/" ++ encodeURIComponent bucket ++ S "/"

/-- `extractObjectPath(publicUrl, bucket)` on a string argument: locate the
marker, take everything after it, URL-decoded; `null` (`none`) when the
input is falsy, the marker is absent, or decoding throws (the internal
`try`).  `extractObjectPathJ` below extends this to the other JS values the
row field can hold. -/
def extractObjectPath (publicUrl : List Char) (bucket : List Char) : Option (List Char) :=
  if publicUrl = [] then none
  else
    match findMarker (markerOf bucket) publicUrl with
    | none => none
    | some idx => decodeURIComponent (publicUrl.drop (idx + (markerOf bucket).length))

/-! ### Configuration (`getCfg`) -/
/-- `a || b` where `a` is an environment variable (a string when set). -/
def orFalsy (a : Option (List Char)) (b : List Char) : List Char :=
  match a with
  | some s => if s ≠ [] then s else b
  | none => b

/-- `url.replace(/\/$/, "")`. -/
def stripTrailingSlash (s : List Char) : List Char :=
  if s.getLast? = some '/' then s.dropLast else s

/-- The environment variables the handlers read. -/
structure Env where
  supahubUrl : Option (List Char) := none
  supabaseUrl : Option (List Char) := none
  supahubKey : Option (List Char) := none
  supabaseKey : Option (List Char) := none
  supahubBucket : Option (List Char) := none
  supabaseBucket : Option (List Char) := none
  supahubGalleryTable : Option (List Char) := none
  supabaseGalleryTable : Option (List Char) := none
  supahubJournalTable : Option (List Char) := none
  supabaseJournalTable : Option (List Char) := none
  netlifyBuildHookUrl : Option (List Char) := none
  adminSecret : Option (List Char) := none
  adminPassword : Option (List Char) := none

structure GCfg where
  base : List Char
  key : List Char
  bucket : List Char
  table : List Char

/-- `getCfg` of the fetch-based gallery handler; `none` models the thrown
`Missing env vars` error. -/
def getCfgGallery (env : Env) : Option GCfg :=
  let url := orFalsy env.supahubUrl (orFalsy env.supabaseUrl [])
  let key := orFalsy env.supahubKey (orFalsy env.supabaseKey [])
  let bucket := orFalsy env.supahubBucket (orFalsy env.supabaseBucket (S "photos"))
  let table := orFalsy env.supahubGalleryTable (orFalsy env.supabaseGalleryTable (S "gallery"))
  if url = [] ∨ key = [] then none
  else some ⟨stripTrailingSlash url, key, bucket, table⟩

structure JCfg where
  base : List Char
  key : List Char
  table : List Char

/-- `getCfg` of the fetch-based journal handlers. -/
def getCfgJournal (env : Env) : Option JCfg :=
  let url := orFalsy env.supahubUrl (orFalsy env.supabaseUrl [])
  let key := orFalsy env.supahubKey (orFalsy env.supabaseKey [])
  let table := orFalsy env.supahubJournalTable (orFalsy env.supabaseJournalTable (S "journal"))
  if url = [] ∨ key = [] then none
  else some ⟨stripTrailingSlash url, key, table⟩

def restUrl (base path : List Char) : List Char := base ++ S "/rest/v1" ++ path

def objectWriteUrl (base bucket objectPath : List Char) : List Char :=
  base ++ S "/storage/v1/object/" ++ encodeURIComponent bucket ++ S "/" ++ objectPath

def objectPublicUrl (base bucket objectPath : List Char) : List Char :=
  base ++ S "/storage/v1/object/public/" ++ encodeURIComponent bucket ++ S "/" ++ objectPath

/-! ### HTTP infrastructure -/
/-- A `fetch` response as the handlers consume it: `ok`, `status`, and the
body text (`res.text()`; `res.json()` is modelled as `jsParse` of it). -/
structure FetchResp where
  ok : Bool
  status : Nat
  bodyText : List Char

/-- One outbound call a handler issues against the backing service. -/
inductive Call where
  | restGet (url : List Char)
  | restPost (url : List Char) (payload : JVal)
  | restPatch (url : List Char) (payload : JVal)
  | restDelete (url : List Char)
  | storageUpload (url contentType : List Char) (bytes : List Nat)
  | storageDelete (url : List Char)
  | hookPost (url : List Char) (withJsonBody : Bool)
  | sbGallerySelectAll
  | sbGalleryMaxOrder
  | sbGalleryInsert (rows : List JVal)
  | sbGalleryUpdate (id fields : JVal)
  | sbGalleryDelete (id : JVal)
  | sbJournalSelectAll
  | sbJournalInsert (rows : List JVal)
  | sbJournalUpdate (id fields : JVal)
  | sbJournalDelete (id : JVal)
  | sbStorageUpload (name contentType : List Char) (bytes : List Nat)

/-- Whether a call writes a database row over REST (the gallery insert). -/
def Call.isDbInsert : Call → Bool
  | .restPost _ _ => true
  | _ => false

/-- Whether a call deletes a storage object. -/
def Call.isStorageDelete : Call → Bool
  | .storageDelete _ => true
  | _ => false

/-- A response body: the raw empty string of the OPTIONS short-circuit, or
`JSON.stringify` of a value (kept structured). -/
inductive RBody where
  | raw (s : List Char)
  | jsonOf (v : JVal)

structure HResp where
  statusCode : Nat
  headers : List (List Char × List Char)
  body : RBody

/-- The inbound event fields the handlers read. -/
structure Event where
  httpMethod : List Char
  body : Option (List Char) := none
  xAdminKeyLower : Option (List Char) := none
  xAdminKeyUpper : Option (List Char) := none

def corsNetlify : List (List Char × List Char) :=
  [(S "Access-Control-Allow-Origin", S "*"),
   (S "Access-Control-Allow-Methods", S "GET,POST,PUT,DELETE,OPTIONS"),
   (S "Access-Control-Allow-Headers", S "Content-Type, Authorization")]

/-- The `json` helper of the fetch-based gallery/journal handlers. -/
def jsonNetlify (status : Nat) (v : JVal) : HResp :=
  ⟨status, (S "Content-Type", S "application/json") :: corsNetlify, .jsonOf v⟩

def errObj (msg detail : List Char) : JVal :=
  .obj [(S "error", .str msg), (S "detail", .str detail)]

/-- `json(500, { error: "Internal error", detail: ... })` produced by the
outer catch.  Engine-generated exception texts are modelled by the
exception class name. -/
def internalErr (detail : List Char) : HResp :=
  jsonNetlify 500 (errObj (S "Internal error") detail)

def missingEnvMsg : List Char :=
  S "Missing env vars: SUPAHUB_URL/SUPABASE_URL and SUPAHUB_SERVICE_KEY/SUPABASE_SERVICE_ROLE_KEY"

/-- Decimal rendering of `Date.now()` and HTTP statuses. -/
def natLex (n : Nat) : List Char := (Nat.repr n).data

/-! ### Fetch-based gallery handler -/
/-- One row of the GET normalization:
`const url = r.image_url || r.src || null; return {...r, image_url: url, src: url}`.
`none` models the TypeError when `r` is `null`. -/
def resolveGalleryRow (r : JVal) : Option JVal :=
  match getProp r (S "image_url"), getProp r (S "src") with
  | some iu, some sr =>
    let url := jvOr iu (jvOr sr .null)
    some (jvSpread2 r (S "image_url") url (S "src") url)
  | _, _ => none

def galleryListBranch (cfg : GCfg) (listResp : FetchResp) : HResp × List Call :=
  let url := restUrl cfg.base (S "/" ++ encodeURIComponent cfg.table ++ S "?select=*")
  let calls := [Call.restGet url]
  if listResp.ok = false then
    (jsonNetlify 502 (errObj (S "Failed to list gallery") listResp.bodyText), calls)
  else
    match jsParse listResp.bodyText with
    | some (.arr rows) =>
      match rows.mapM resolveGalleryRow with
      | some out => (jsonNetlify 200 (.arr out), calls)
      | none => (internalErr (S "TypeError"), calls)
    | some _ => (internalErr (S "TypeError"), calls)
    | none => (internalErr (S "SyntaxError"), calls)

def galleryPostBranch (cfg : GCfg) (bodyRaw : Option (List Char)) (ts : Nat)
    (upResp insResp : FetchResp) : HResp × List Call :=
  match jsParse (orFalsy bodyRaw (S "\x7b\x7d")) with
  | none => (internalErr (S "SyntaxError"), [])
  | some b =>
    match b with
    | .null => (internalErr (S "TypeError"), [])
    | _ =>
      let image := jvOr (getPropD b (S "image")) (getPropD b (S "dataUrl"))
      let filename := getPropD b (S "filename")
      let location := getPropD b (S "location")
      if ¬ (jvTruthy image = true ∧ jvTruthy filename = true) then
        (jsonNetlify 400 (.obj [(S "error", .str (S "image and filename required"))]), [])
      else
        match parseDataUrl image with
        | none => (internalErr (S "Bad image dataUrl"), [])
        | some pd =>
          match filename with
          | .str f =>
            let fname := cleanName f
            let objectPath := S "uploads/" ++ natLex ts ++ S "_" ++ fname
            let upCall := Call.storageUpload (objectWriteUrl cfg.base cfg.bucket objectPath)
              pd.contentType pd.buffer
            if upResp.ok = false then
              (jsonNetlify 502 (errObj (S "upload failed") upResp.bodyText), [upCall])
            else
              let publicUrl := objectPublicUrl cfg.base cfg.bucket objectPath
              let payload : JVal := .obj [(S "filename", .str fname),
                (S "location", jvOr location (.str [])), (S "image_url", .str publicUrl)]
              let insCall := Call.restPost (restUrl cfg.base (S "/" ++ encodeURIComponent cfg.table)) payload
              if insResp.ok = false then
                (jsonNetlify 502 (errObj (S "db insert failed") insResp.bodyText), [upCall, insCall])
              else
                match jsParse insResp.bodyText with
                | none => (internalErr (S "SyntaxError"), [upCall, insCall])
                | some jv =>
                  match jvIterate jv with
                  | none => (internalErr (S "TypeError"), [upCall, insCall])
                  | some elems =>
                    let row := elems.headD .undefined
                    (jsonNetlify 200 (jvSpread2 row (S "image_url") (.str publicUrl)
                      (S "src") (.str publicUrl)), [upCall, insCall])
          | _ => (internalErr (S "TypeError"), [])

def galleryPutBranch (cfg : GCfg) (bodyRaw : Option (List Char))
    (updResp : FetchResp) : HResp × List Call :=
  match jsParse (orFalsy bodyRaw (S "\x7b\x7d")) with
  | none => (internalErr (S "SyntaxError"), [])
  | some b =>
    let bb := jvOr b (.obj [])
    let id := getPropD bb (S "id")
    let location := getPropD bb (S "location")
    let imageUrl := getPropD bb (S "image_url")
    if jvTruthy id = false then
      (jsonNetlify 400 (.obj [(S "error", .str (S "Missing id"))]), [])
    else
      let fields := (if jvIsStr location then [(S "location", location)] else []) ++
        (if jvIsStr imageUrl then [(S "image_url", imageUrl)] else [])
      if fields.isEmpty then
        (jsonNetlify 400 (.obj [(S "error", .str (S "No updatable fields provided"))]), [])
      else
        let url := restUrl cfg.base (S "/" ++ encodeURIComponent cfg.table ++ S "?id=eq." ++
          encodeURIComponent (jvToS id))
        let call := Call.restPatch url (.obj fields)
        if updResp.ok = false then
          (jsonNetlify 502 (errObj (S "db update failed") updResp.bodyText), [call])
        else
          match jsParse updResp.bodyText with
          | none => (internalErr (S "SyntaxError"), [call])
          | some jv =>
            match jvIterate jv with
            | none => (internalErr (S "TypeError"), [call])
            | some elems =>
              let row := elems.headD .undefined
              match getProp row (S "image_url"), getProp row (S "src") with
              | some iu, some sr =>
                let u := jvOr iu (jvOr sr .null)
                (jsonNetlify 200 (jvSpread2 row (S "image_url") u (S "src") u), [call])
              | _, _ => (internalErr (S "TypeError"), [call])

/-- `Array.prototype.indexOf` against a string target: index of the first
element strictly equal (`===`) to it, so only a string element with the
same characters matches. -/
def arrIndexOfStr : List JVal → List Char → Option Nat
  | [], _ => none
  | v :: rest, m =>
    if jvStrVal v = some m then some 0
    else (arrIndexOfStr rest m).map (fun i => i + 1)

/-- `extractObjectPath` on an arbitrary JS value, following the duck typing
of the source: a falsy value returns `null` at the `!publicUrl` guard; a
string is handled by `extractObjectPath` above; an array has its own
`indexOf` (strict equality on elements) and `slice` — the slice starts at
the found index plus the marker string's length — and `decodeURIComponent`
coerces the sliced array to its comma-joined string before decoding; any
other truthy value has no `indexOf` method, so the call throws a TypeError
that the internal `try` turns into `null`. -/
def extractObjectPathJ (publicUrl : JVal) (bucket : List Char) : Option (List Char) :=
  if jvTruthy publicUrl = false then none
  else
    match publicUrl with
    | .str s => extractObjectPath s bucket
    | .arr xs =>
      match arrIndexOfStr xs (markerOf bucket) with
      | none => none
      | some idx =>
        decodeURIComponent (jvToString (.arr (xs.drop (idx + (markerOf bucket).length))))
    | _ => none

/-- The best-effort storage deletion of the gallery DELETE branch:
when `if (row && row.image_url)` holds and the derived object path is
truthy (`if (objectPath)` — the empty string does not count), one
storage-delete call is issued; its response is ignored. -/
def galleryObjDeleteCalls (cfg : GCfg) (row : JVal) : List Call :=
  if jvTruthy row = true ∧ jvTruthy (getPropD row (S "image_url")) = true then
    match extractObjectPathJ (getPropD row (S "image_url")) cfg.bucket with
    | some op =>
      if op ≠ [] then
        [Call.storageDelete (cfg.base ++ S "/storage/v1/object/" ++
          encodeURIComponent cfg.bucket ++ S "/" ++ op)]
      else []
    | none => []
  else []

def galleryDeleteBranch (cfg : GCfg) (bodyRaw : Option (List Char))
    (getResp delResp : FetchResp) : HResp × List Call :=
  match jsParse (orFalsy bodyRaw (S "\x7b\x7d")) with
  | none => (internalErr (S "SyntaxError"), [])
  | some b =>
    let bb := jvOr b (.obj [])
    let id := getPropD bb (S "id")
    if jvTruthy id = false then
      (jsonNetlify 400 (.obj [(S "error", .str (S "Missing id"))]), [])
    else
      let getCall := Call.restGet (restUrl cfg.base (S "/" ++ encodeURIComponent cfg.table ++
        S "?id=eq." ++ encodeURIComponent (jvToS id) ++ S "&select=id,image_url"))
      if getResp.ok = false then
        (jsonNetlify 502 (errObj (S "db read failed") getResp.bodyText), [getCall])
      else
        match jsParse getResp.bodyText with
        | none => (internalErr (S "SyntaxError"), [getCall])
        | some jv =>
          match jvIterate jv with
          | none => (internalErr (S "TypeError"), [getCall])
          | some elems =>
            let row := elems.headD .undefined
            let delCall := Call.restDelete (restUrl cfg.base (S "/" ++ encodeURIComponent cfg.table ++
              S "?id=eq." ++ encodeURIComponent (jvToS id)))
            if delResp.ok = false then
              (jsonNetlify 502 (errObj (S "db delete failed") delResp.bodyText), [getCall, delCall])
            else
              (jsonNetlify 200 (.obj [(S "ok", .bool true)]),
                [getCall, delCall] ++ galleryObjDeleteCalls cfg row)

/-- The fetch-based gallery handler (`functions/gallery.js`).  The response
of the best-effort storage delete is never read by the code, so it is not
an input of the model. -/
def netlifyGallery (env : Env) (ev : Event) (ts : Nat)
    (listResp upResp insResp updResp getResp delResp : FetchResp) : HResp × List Call :=
  if ev.httpMethod = S "OPTIONS" then (⟨204, corsNetlify, .raw []⟩, [])
  else
    match getCfgGallery env with
    | none => (internalErr missingEnvMsg, [])
    | some cfg =>
      if ev.httpMethod = S "GET" then galleryListBranch cfg listResp
      else if ev.httpMethod = S "POST" then galleryPostBranch cfg ev.body ts upResp insResp
      else if ev.httpMethod = S "PUT" then galleryPutBranch cfg ev.body updResp
      else if ev.httpMethod = S "DELETE" then galleryDeleteBranch cfg ev.body getResp delResp
      else (jsonNetlify 405 (.obj [(S "error", .str (S "Method not allowed"))]), [])

/-! ### Fetch-based journal handler of `src/unnamed/part_000` -/
/-- JS whitespace for `String.prototype.trim` (the common characters; other
Unicode space separators never reach the handlers in the modelled claims). -/
def jsWS (c : Char) : Bool :=
  c = ' ' ∨ c = '\t' ∨ c = '\n' ∨ c = '\r' ∨ c.toNat = 0x0B ∨ c.toNat = 0x0C ∨
    c.toNat = 0xA0 ∨ c.toNat = 0xFEFF ∨ c.toNat = 0x2028 ∨ c.toNat = 0x2029

def trimWS (s : List Char) : List Char :=
  ((s.dropWhile jsWS).reverse.dropWhile jsWS).reverse

/-- `(v || "").toString().trim() || dflt`. -/
def strOrDefault (v : JVal) (dflt : List Char) : List Char :=
  let t := trimWS (jvToS (jvOr v (.str [])))
  if t = [] then dflt else t

/-- GET-row normalization of the part_000 journal handler; `none` models
the TypeError on a `null` row. -/
def journalP0Row (nowIso : List Char) (r : JVal) : Option JVal :=
  match r with
  | .null => none
  | .undefined => none
  | _ => some (.obj [
      (S "id", getPropD r (S "id")),
      (S "title", jvOr (getPropD r (S "title")) (.str (S "Untitled"))),
      (S "date", jvOr (getPropD r (S "date")) (jvOr (getPropD r (S "created_at")) (.str nowIso))),
      (S "content", jvOr (getPropD r (S "content")) (jvOr (getPropD r (S "body")) (.str []))),
      (S "created_at", getPropD r (S "created_at")),
      (S "updated_at", getPropD r (S "updated_at"))])

/-- POST/PUT response row of the part_000 journal handler (`row.id` throws
when the returned representation is empty). -/
def journalP0RespRow (row : JVal) : Option JVal :=
  match row with
  | .null => none
  | .undefined => none
  | _ => some (.obj [
      (S "id", getPropD row (S "id")),
      (S "title", getPropD row (S "title")),
      (S "date", jvOr (getPropD row (S "date")) (getPropD row (S "created_at"))),
      (S "content", jvOr (getPropD row (S "content")) (.str [])),
      (S "created_at", getPropD row (S "created_at")),
      (S "updated_at", getPropD row (S "updated_at"))])

def journalP0ListBranch (cfg : JCfg) (nowIso : List Char) (listResp : FetchResp) :
    HResp × List Call :=
  let url := restUrl cfg.base (S "/" ++ encodeURIComponent cfg.table ++
    S "?select=*&order=created_at.desc.nullslast&order=id.desc")
  let calls := [Call.restGet url]
  if listResp.ok = false then
    (jsonNetlify 502 (errObj (S "Failed to list journal") listResp.bodyText), calls)
  else
    match jsParse listResp.bodyText with
    | some (.arr rows) =>
      match rows.mapM (journalP0Row nowIso) with
      | some out => (jsonNetlify 200 (.arr out), calls)
      | none => (internalErr (S "TypeError"), calls)
    | some _ => (internalErr (S "TypeError"), calls)
    | none => (internalErr (S "SyntaxError"), calls)

def journalP0PostBranch (cfg : JCfg) (bodyRaw : Option (List Char)) (nowIso : List Char)
    (insResp : FetchResp) : HResp × List Call :=
  match jsParse (orFalsy bodyRaw (S "\x7b\x7d")) with
  | none => (internalErr (S "SyntaxError"), [])
  | some b =>
    match b with
    | .null => (internalErr (S "TypeError"), [])
    | _ =>
      let title := strOrDefault (getPropD b (S "title")) (S "Untitled")
      let date := strOrDefault (getPropD b (S "date")) nowIso
      let content := jvToS (jvOr (getPropD b (S "content")) (.str []))
      let payload : JVal := .obj [(S "title", .str title), (S "date", .str date),
        (S "content", .str content)]
      let insCall := Call.restPost (restUrl cfg.base (S "/" ++ encodeURIComponent cfg.table)) payload
      if insResp.ok = false then
        (jsonNetlify 502 (errObj (S "db insert failed") insResp.bodyText), [insCall])
      else
        match jsParse insResp.bodyText with
        | none => (internalErr (S "SyntaxError"), [insCall])
        | some jv =>
          match jvIterate jv with
          | none => (internalErr (S "TypeError"), [insCall])
          | some elems =>
            match journalP0RespRow (elems.headD .undefined) with
            | some out => (jsonNetlify 200 out, [insCall])
            | none => (internalErr (S "TypeError"), [insCall])

def journalP0PutBranch (cfg : JCfg) (bodyRaw : Option (List Char))
    (updResp : FetchResp) : HResp × List Call :=
  match jsParse (orFalsy bodyRaw (S "\x7b\x7d")) with
  | none => (internalErr (S "SyntaxError"), [])
  | some b =>
    let id := getPropD (jvOr b (.obj [])) (S "id")
    if jvTruthy id = false then
      (jsonNetlify 400 (.obj [(S "error", .str (S "Missing id"))]), [])
    else
      let fields :=
        (if jvIsStr (getPropD b (S "title")) then [(S "title", getPropD b (S "title"))] else []) ++
        (if jvIsStr (getPropD b (S "date")) then [(S "date", getPropD b (S "date"))] else []) ++
        (if jvIsStr (getPropD b (S "content")) then [(S "content", getPropD b (S "content"))] else [])
      if fields.isEmpty then
        (jsonNetlify 400 (.obj [(S "error", .str (S "No updatable fields provided"))]), [])
      else
        let url := restUrl cfg.base (S "/" ++ encodeURIComponent cfg.table ++ S "?id=eq." ++
          encodeURIComponent (jvToS id))
        let call := Call.restPatch url (.obj fields)
        if updResp.ok = false then
          (jsonNetlify 502 (errObj (S "db update failed") updResp.bodyText), [call])
        else
          match jsParse updResp.bodyText with
          | none => (internalErr (S "SyntaxError"), [call])
          | some jv =>
            match jvIterate jv with
            | none => (internalErr (S "TypeError"), [call])
            | some elems =>
              match journalP0RespRow (elems.headD .undefined) with
              | some out => (jsonNetlify 200 out, [call])
              | none => (internalErr (S "TypeError"), [call])

def journalP0DeleteBranch (cfg : JCfg) (bodyRaw : Option (List Char))
    (delResp : FetchResp) : HResp × List Call :=
  match jsParse (orFalsy bodyRaw (S "\x7b\x7d")) with
  | none => (internalErr (S "SyntaxError"), [])
  | some b =>
    let id := getPropD (jvOr b (.obj [])) (S "id")
    if jvTruthy id = false then
      (jsonNetlify 400 (.obj [(S "error", .str (S "Missing id"))]), [])
    else
      let call := Call.restDelete (restUrl cfg.base (S "/" ++ encodeURIComponent cfg.table ++
        S "?id=eq." ++ encodeURIComponent (jvToS id)))
      if delResp.ok = false then
        (jsonNetlify 502 (errObj (S "db delete failed") delResp.bodyText), [call])
      else (jsonNetlify 200 (.obj [(S "ok", .bool true)]), [call])

/-- The journal handler of `src/unnamed/part_000`.  `nowIso` stands for
`new Date().toISOString()`. -/
def part000Journal (env : Env) (ev : Event) (nowIso : List Char)
    (listResp insResp updResp delResp : FetchResp) : HResp × List Call :=
  if ev.httpMethod = S "OPTIONS" then (⟨204, corsNetlify, .raw []⟩, [])
  else
    match getCfgJournal env with
    | none => (internalErr missingEnvMsg, [])
    | some cfg =>
      if ev.httpMethod = S "GET" then journalP0ListBranch cfg nowIso listResp
      else if ev.httpMethod = S "POST" then journalP0PostBranch cfg ev.body nowIso insResp
      else if ev.httpMethod = S "PUT" then journalP0PutBranch cfg ev.body updResp
      else if ev.httpMethod = S "DELETE" then journalP0DeleteBranch cfg ev.body delResp
      else (jsonNetlify 405 (.obj [(S "error", .str (S "Method not allowed"))]), [])

/-! ### Fetch-based journal handler of `functions/journal.js`
(`entry_date` column with a legacy `date` alias) -/
def journalJsRow (nowIso : List Char) (r : JVal) : Option JVal :=
  match r with
  | .null => none
  | .undefined => none
  | _ =>
    let d := jvOr (getPropD r (S "entry_date")) (jvOr (getPropD r (S "created_at")) (.str nowIso))
    some (.obj [
      (S "id", getPropD r (S "id")),
      (S "title", jvOr (getPropD r (S "title")) (.str (S "Untitled"))),
      (S "entry_date", d),
      (S "date", d),
      (S "content", jvOr (getPropD r (S "content")) (.str [])),
      (S "created_at", getPropD r (S "created_at")),
      (S "updated_at", getPropD r (S "updated_at"))])

def journalJsRespRow (row : JVal) : Option JVal :=
  match row with
  | .null => none
  | .undefined => none
  | _ =>
    let d := jvOr (getPropD row (S "entry_date")) (getPropD row (S "created_at"))
    some (.obj [
      (S "id", getPropD row (S "id")),
      (S "title", getPropD row (S "title")),
      (S "entry_date", d),
      (S "date", d),
      (S "content", jvOr (getPropD row (S "content")) (.str [])),
      (S "created_at", getPropD row (S "created_at")),
      (S "updated_at", getPropD row (S "updated_at"))])

def journalJsListBranch (cfg : JCfg) (nowIso : List Char) (listResp : FetchResp) :
    HResp × List Call :=
  let url := restUrl cfg.base (S "/" ++ encodeURIComponent cfg.table ++
    S "?select=*&order=created_at.desc.nullslast&order=id.desc")
  let calls := [Call.restGet url]
  if listResp.ok = false then
    (jsonNetlify 502 (errObj (S "Failed to list journal") listResp.bodyText), calls)
  else
    match jsParse listResp.bodyText with
    | some (.arr rows) =>
      match rows.mapM (journalJsRow nowIso) with
      | some out => (jsonNetlify 200 (.arr out), calls)
      | none => (internalErr (S "TypeError"), calls)
    | some _ => (internalErr (S "TypeError"), calls)
    | none => (internalErr (S "SyntaxError"), calls)

def journalJsPostBranch (cfg : JCfg) (bodyRaw : Option (List Char)) (nowIso : List Char)
    (insResp : FetchResp) : HResp × List Call :=
  match jsParse (orFalsy bodyRaw (S "\x7b\x7d")) with
  | none => (internalErr (S "SyntaxError"), [])
  | some b =>
    match b with
    | .null => (internalErr (S "TypeError"), [])
    | _ =>
      let title := strOrDefault (getPropD b (S "title")) (S "Untitled")
      let entryDate := strOrDefault (jvOr (getPropD b (S "entry_date")) (getPropD b (S "date")))
        (nowIso.take 10)
      let content := jvToS (jvOr (getPropD b (S "content")) (.str []))
      let payload : JVal := .obj [(S "title", .str title), (S "entry_date", .str entryDate),
        (S "content", .str content)]
      let insCall := Call.restPost (restUrl cfg.base (S "/" ++ encodeURIComponent cfg.table)) payload
      if insResp.ok = false then
        (jsonNetlify 502 (errObj (S "db insert failed") insResp.bodyText), [insCall])
      else
        match jsParse insResp.bodyText with
        | none => (internalErr (S "SyntaxError"), [insCall])
        | some jv =>
          match jvIterate jv with
          | none => (internalErr (S "TypeError"), [insCall])
          | some elems =>
            match journalJsRespRow (elems.headD .undefined) with
            | some out => (jsonNetlify 200 out, [insCall])
            | none => (internalErr (S "TypeError"), [insCall])

def journalJsPutBranch (cfg : JCfg) (bodyRaw : Option (List Char))
    (updResp : FetchResp) : HResp × List Call :=
  match jsParse (orFalsy bodyRaw (S "\x7b\x7d")) with
  | none => (internalErr (S "SyntaxError"), [])
  | some b =>
    let id := getPropD (jvOr b (.obj [])) (S "id")
    if jvTruthy id = false then
      (jsonNetlify 400 (.obj [(S "error", .str (S "Missing id"))]), [])
    else
      let fields :=
        (if jvIsStr (getPropD b (S "title")) then [(S "title", getPropD b (S "title"))] else []) ++
        (if jvIsStr (getPropD b (S "entry_date")) then
          [(S "entry_date", getPropD b (S "entry_date"))]
        else if jvIsStr (getPropD b (S "date")) then
          [(S "entry_date", getPropD b (S "date"))]
        else []) ++
        (if jvIsStr (getPropD b (S "content")) then [(S "content", getPropD b (S "content"))] else [])
      if fields.isEmpty then
        (jsonNetlify 400 (.obj [(S "error", .str (S "No updatable fields provided"))]), [])
      else
        let url := restUrl cfg.base (S "/" ++ encodeURIComponent cfg.table ++ S "?id=eq." ++
          encodeURIComponent (jvToS id))
        let call := Call.restPatch url (.obj fields)
        if updResp.ok = false then
          (jsonNetlify 502 (errObj (S "db update failed") updResp.bodyText), [call])
        else
          match jsParse updResp.bodyText with
          | none => (internalErr (S "SyntaxError"), [call])
          | some jv =>
            match jvIterate jv with
            | none => (internalErr (S "TypeError"), [call])
            | some elems =>
              match journalJsRespRow (elems.headD .undefined) with
              | some out => (jsonNetlify 200 out, [call])
              | none => (internalErr (S "TypeError"), [call])

def journalJsDeleteBranch (cfg : JCfg) (bodyRaw : Option (List Char))
    (delResp : FetchResp) : HResp × List Call :=
  match jsParse (orFalsy bodyRaw (S "\x7b\x7d")) with
  | none => (internalErr (S "SyntaxError"), [])
  | some b =>
    let id := getPropD (jvOr b (.obj [])) (S "id")
    if jvTruthy id = false then
      (jsonNetlify 400 (.obj [(S "error", .str (S "Missing id"))]), [])
    else
      let call := Call.restDelete (restUrl cfg.base (S "/" ++ encodeURIComponent cfg.table ++
        S "?id=eq." ++ encodeURIComponent (jvToS id)))
      if delResp.ok = false then
        (jsonNetlify 502 (errObj (S "db delete failed") delResp.bodyText), [call])
      else (jsonNetlify 200 (.obj [(S "ok", .bool true)]), [call])

def journalJsHandler (env : Env) (ev : Event) (nowIso : List Char)
    (listResp insResp updResp delResp : FetchResp) : HResp × List Call :=
  if ev.httpMethod = S "OPTIONS" then (⟨204, corsNetlify, .raw []⟩, [])
  else
    match getCfgJournal env with
    | none => (internalErr missingEnvMsg, [])
    | some cfg =>
      if ev.httpMethod = S "GET" then journalJsListBranch cfg nowIso listResp
      else if ev.httpMethod = S "POST" then journalJsPostBranch cfg ev.body nowIso insResp
      else if ev.httpMethod = S "PUT" then journalJsPutBranch cfg ev.body updResp
      else if ev.httpMethod = S "DELETE" then journalJsDeleteBranch cfg ev.body delResp
      else (jsonNetlify 405 (.obj [(S "error", .str (S "Method not allowed"))]), [])

/-! ### Fetch-based journal variant concatenated into `functions/gallery.js`
(no row normalization, explicit title/content validation) -/
def journalGxHandler (env : Env) (ev : Event)
    (listResp insResp updResp delResp : FetchResp) : HResp × List Call :=
  if ev.httpMethod = S "OPTIONS" then (⟨204, corsNetlify, .raw []⟩, [])
  else
    match getCfgJournal env with
    | none => (internalErr missingEnvMsg, [])
    | some cfg =>
      if ev.httpMethod = S "GET" then
        let url := restUrl cfg.base (S "/" ++ encodeURIComponent cfg.table ++
          S "?select=*&order=date.desc.nullslast&order=created_at.desc.nullslast")
        let calls := [Call.restGet url]
        if listResp.ok = false then
          (jsonNetlify 502 (errObj (S "Failed to load journal") listResp.bodyText), calls)
        else
          match jsParse listResp.bodyText with
          | some rows => (jsonNetlify 200 rows, calls)
          | none => (internalErr (S "SyntaxError"), calls)
      else if ev.httpMethod = S "POST" then
        match jsParse (orFalsy ev.body (S "\x7b\x7d")) with
        | none => (internalErr (S "SyntaxError"), [])
        | some b =>
          let bb := jvOr b (.obj [])
          let title := getPropD bb (S "title")
          let date := getPropD bb (S "date")
          let content := getPropD bb (S "content")
          if ¬ (jvTruthy title = true ∧ jvTruthy content = true) then
            (jsonNetlify 400 (.obj [(S "error", .str (S "title and content are required"))]), [])
          else
            let payload : JVal := .obj ([(S "title", .str (jvToS title)),
              (S "content", .str (jvToS content))] ++
              (if jvTruthy date then [(S "date", date)] else []))
            let call := Call.restPost (restUrl cfg.base (S "/" ++ encodeURIComponent cfg.table)) payload
            if insResp.ok = false then
              (jsonNetlify 502 (errObj (S "Failed to insert journal entry") insResp.bodyText), [call])
            else
              match jsParse insResp.bodyText with
              | none => (internalErr (S "SyntaxError"), [call])
              | some jv =>
                match jvIterate jv with
                | none => (internalErr (S "TypeError"), [call])
                | some elems => (jsonNetlify 200 (elems.headD .undefined), [call])
      else if ev.httpMethod = S "PUT" then
        match jsParse (orFalsy ev.body (S "\x7b\x7d")) with
        | none => (internalErr (S "SyntaxError"), [])
        | some b =>
          let bb := jvOr b (.obj [])
          let id := getPropD bb (S "id")
          if jvTruthy id = false then
            (jsonNetlify 400 (.obj [(S "error", .str (S "id is required"))]), [])
          else
            let fields :=
              (if jvIsStr (getPropD bb (S "title")) then [(S "title", getPropD bb (S "title"))] else []) ++
              (if jvIsStr (getPropD bb (S "content")) then [(S "content", getPropD bb (S "content"))] else []) ++
              (if jvIsStr (getPropD bb (S "date")) then [(S "date", getPropD bb (S "date"))] else [])
            if fields.isEmpty then
              (jsonNetlify 400 (.obj [(S "error", .str (S "No updatable fields provided"))]), [])
            else
              let call := Call.restPatch (restUrl cfg.base (S "/" ++ encodeURIComponent cfg.table ++
                S "?id=eq." ++ encodeURIComponent (jvToS id))) (.obj fields)
              if updResp.ok = false then
                (jsonNetlify 502 (errObj (S "Failed to update journal entry") updResp.bodyText), [call])
              else
                match jsParse updResp.bodyText with
                | none => (internalErr (S "SyntaxError"), [call])
                | some jv =>
                  match jvIterate jv with
                  | none => (internalErr (S "TypeError"), [call])
                  | some elems => (jsonNetlify 200 (elems.headD .undefined), [call])
      else if ev.httpMethod = S "DELETE" then
        match jsParse (orFalsy ev.body (S "\x7b\x7d")) with
        | none => (internalErr (S "SyntaxError"), [])
        | some b =>
          let id := getPropD (jvOr b (.obj [])) (S "id")
          if jvTruthy id = false then
            (jsonNetlify 400 (.obj [(S "error", .str (S "id is required"))]), [])
          else
            let call := Call.restDelete (restUrl cfg.base (S "/" ++ encodeURIComponent cfg.table ++
              S "?id=eq." ++ encodeURIComponent (jvToS id)))
            if delResp.ok = false then
              (jsonNetlify 502 (errObj (S "Failed to delete journal entry") delResp.bodyText), [call])
            else (jsonNetlify 200 (.obj [(S "ok", .bool true)]), [call])
      else (jsonNetlify 405 (.obj [(S "error", .str (S "Method not allowed"))]), [])

/-! ### Rebuild-trigger handler (`functions/update-site.js`) -/
def corsUpdateSite : List (List Char × List Char) :=
  [(S "Access-Control-Allow-Origin", S "*"),
   (S "Access-Control-Allow-Methods", S "POST,OPTIONS"),
   (S "Access-Control-Allow-Headers", S "Content-Type, X-Admin-Key")]

def jsonUpdateSite (status : Nat) (v : JVal) : HResp :=
  ⟨status, (S "Content-Type", S "application/json") ::
    (S "Cache-Control", S "no-store, max-age=0") :: (S "Pragma", S "no-cache") :: corsUpdateSite,
    .jsonOf v⟩

/-- Truthiness of an environment value / header value (a string when set). -/
def optTruthy : Option (List Char) → Bool
  | some s => s ≠ []
  | none => false

/-- `a || b` on two possibly-absent strings, keeping absence. -/
def hdrOr (a b : Option (List Char)) : Option (List Char) :=
  match a with
  | some s => if s ≠ [] then some s else b
  | none => b

/-- `provided !== secret` where `provided` is a string or `undefined` and
`secret` is the configured string. -/
def strictNeOptStr (provided : Option (List Char)) (secret : List Char) : Bool :=
  match provided with
  | some p => p ≠ secret
  | none => true

/-- Whether the optional `ADMIN_SECRET` guard rejects the request. -/
def adminRejected (secret : Option (List Char)) (ev : Event) : Bool :=
  optTruthy secret &&
    strictNeOptStr (hdrOr ev.xAdminKeyLower ev.xAdminKeyUpper) ((secret).getD [])

/-- `parsed || text`: the response text parsed as JSON when that succeeds
and yields a truthy value, otherwise the raw text. -/
def jsonOrText (t : List Char) : JVal :=
  match jsParse t with
  | some v => if jvTruthy v then v else .str t
  | none => .str t

/-- The tail of the rebuild-trigger handler, applied to whichever response
ended up in `res`. -/
def updateSiteFinish (r : FetchResp) : HResp :=
  if r.ok = false then
    jsonUpdateSite 502 (.obj [(S "error", .str (S "Build hook responded with error")),
      (S "status", .num (natLex r.status)), (S "body", jsonOrText r.bodyText)])
  else
    jsonUpdateSite 200 (.obj [(S "ok", .bool true), (S "status", .num (natLex r.status)),
      (S "body", jsonOrText r.bodyText),
      (S "note", .str (S "Build enqueued. Check Netlify → Deploys."))])

/-- `functions/update-site.js`: try the hook with a JSON body, retry once
with no body if that is rejected. -/
def updateSite (env : Env) (ev : Event) (resp1 resp2 : FetchResp) : HResp × List Call :=
  if ev.httpMethod = S "OPTIONS" then (⟨204, corsUpdateSite, .raw []⟩, [])
  else if ev.httpMethod ≠ S "POST" then
    (jsonUpdateSite 405 (.obj [(S "error", .str (S "Method not allowed"))]), [])
  else if optTruthy env.netlifyBuildHookUrl = false then
    (jsonUpdateSite 500 (.obj [(S "error", .str (S "Missing NETLIFY_BUILD_HOOK_URL env var"))]), [])
  else if adminRejected env.adminSecret ev then
    (jsonUpdateSite 401 (.obj [(S "error", .str (S "Unauthorized"))]), [])
  else
    let hook := (env.netlifyBuildHookUrl).getD []
    if resp1.ok then (updateSiteFinish resp1, [Call.hookPost hook true])
    else (updateSiteFinish resp2, [Call.hookPost hook true, Call.hookPost hook false])

/-! ### Legacy supabase-client handlers -/
/-- The `headers` constant of the legacy gallery/journal handlers. -/
def corsLegacyAll : List (List Char × List Char) :=
  [(S "Access-Control-Allow-Origin", S "*"),
   (S "Access-Control-Allow-Headers", S "Content-Type"),
   (S "Access-Control-Allow-Methods", S "GET, POST, PUT, DELETE, OPTIONS")]

/-- The `headers` constant of the legacy upload/auth-check handlers. -/
def corsLegacyPost : List (List Char × List Char) :=
  [(S "Access-Control-Allow-Origin", S "*"),
   (S "Access-Control-Allow-Headers", S "Content-Type"),
   (S "Access-Control-Allow-Methods", S "POST, OPTIONS")]

/-- A supabase-js call result: `{ data, error }` with `error.message`. -/
structure SBRes where
  data : JVal
  error : Option (List Char)

def jsonLegacy (status : Nat) (v : JVal) : HResp := ⟨status, corsLegacyAll, .jsonOf v⟩

/-- The legacy catch: `json 500 { error: error.message }`. -/
def legacyCatch (msg : List Char) : HResp := jsonLegacy 500 (.obj [(S "error", .str msg)])

/-- `v[0]`: `none` models the TypeError on a `null`/`undefined` base. -/
def jvIndex0 : JVal → Option JVal
  | .null => none
  | .undefined => none
  | .arr xs => some (xs.headD .undefined)
  | .str [] => some .undefined
  | .str (c :: _) => some (.str [c])
  | _ => some .undefined

def parseIntLexeme (lex : List Char) : Option Int :=
  match lex with
  | '-' :: ds => if ds ≠ [] ∧ ds.all isDigit then
      some (- (ds.foldl (fun a c => a * 10 + (c.toNat - '0'.toNat)) 0 : Nat)) else none
  | ds => if ds ≠ [] ∧ ds.all isDigit then
      some ((ds.foldl (fun a c => a * 10 + (c.toNat - '0'.toNat)) 0 : Nat) : Int) else none

def intLexeme (i : Int) : List Char :=
  if i < 0 then '-' :: natLex i.natAbs else natLex i.natAbs

/-- JS `v + 1` as it reaches `JSON.stringify`: integer lexemes increment;
strings concatenate `"1"`; `null` becomes 1, booleans 2/1; `undefined` and
non-integer lexemes yield NaN, which stringifies as `null`. -/
def jvPlusOne : JVal → JVal
  | .num lex =>
    match parseIntLexeme lex with
    | some i => .num (intLexeme (i + 1))
    | none => .null
  | .str s => .str (s ++ S "1")
  | .null => .num (S "1")
  | .bool b => .num (if b then S "2" else S "1")
  | .undefined => .null
  | .obj _ => .str (S "[object Object]1")
  | .arr xs => .str (jvArrJoin xs ++ S "1")

/-- `maxOrder.length > 0 ? maxOrder[0].order_index + 1 : 1`; `none` models
the TypeError when `maxOrder` (or its first element) is `null`/`undefined`. -/
def legacyNextOrder : JVal → Option JVal
  | .null => none
  | .undefined => none
  | .arr [] => some (.num (S "1"))
  | .arr (first :: _) =>
    match getProp first (S "order_index") with
    | none => none
    | some v => some (jvPlusOne v)
  | .str [] => some (.num (S "1"))
  | .str (_ :: _) => some (jvPlusOne .undefined)
  | _ => some (.num (S "1"))

/-- The legacy supabase-client gallery handler (first section of
`functions/gallery.js`). -/
def legacyGallery (ev : Event) (selRes maxRes insRes updRes delRes : SBRes) :
    HResp × List Call :=
  if ev.httpMethod = S "OPTIONS" then (⟨200, corsLegacyAll, .raw []⟩, [])
  else if ev.httpMethod = S "GET" then
    match selRes.error with
    | some m => (legacyCatch m, [Call.sbGallerySelectAll])
    | none => (jsonLegacy 200 selRes.data, [Call.sbGallerySelectAll])
  else if ev.httpMethod = S "POST" then
    match ev.body with
    | none => (legacyCatch (S "SyntaxError"), [])
    | some raw =>
      match jsParse raw with
      | none => (legacyCatch (S "SyntaxError"), [])
      | some b =>
        match b with
        | .null => (legacyCatch (S "TypeError"), [])
        | _ =>
          let filename := getPropD b (S "filename")
          let location := getPropD b (S "location")
          let imageUrl := getPropD b (S "image_url")
          match legacyNextOrder maxRes.data with
          | none => (legacyCatch (S "TypeError"), [Call.sbGalleryMaxOrder])
          | some nextOrder =>
            let payload : JVal := .obj [(S "filename", filename), (S "location", location),
              (S "image_url", jvOr imageUrl (.str (S "photos/" ++ jvToS filename))),
              (S "order_index", nextOrder)]
            let calls := [Call.sbGalleryMaxOrder, Call.sbGalleryInsert [payload]]
            match insRes.error with
            | some m => (legacyCatch m, calls)
            | none =>
              match jvIndex0 insRes.data with
              | none => (legacyCatch (S "TypeError"), calls)
              | some row => (jsonLegacy 201 row, calls)
  else if ev.httpMethod = S "PUT" then
    match ev.body with
    | none => (legacyCatch (S "SyntaxError"), [])
    | some raw =>
      match jsParse raw with
      | none => (legacyCatch (S "SyntaxError"), [])
      | some b =>
        match b with
        | .null => (legacyCatch (S "TypeError"), [])
        | _ =>
          let id := getPropD b (S "id")
          let location := getPropD b (S "location")
          let calls := [Call.sbGalleryUpdate id (.obj [(S "location", location)])]
          match updRes.error with
          | some m => (legacyCatch m, calls)
          | none =>
            match jvIndex0 updRes.data with
            | none => (legacyCatch (S "TypeError"), calls)
            | some row => (jsonLegacy 200 row, calls)
  else if ev.httpMethod = S "DELETE" then
    match ev.body with
    | none => (legacyCatch (S "SyntaxError"), [])
    | some raw =>
      match jsParse raw with
      | none => (legacyCatch (S "SyntaxError"), [])
      | some b =>
        match b with
        | .null => (legacyCatch (S "TypeError"), [])
        | _ =>
          let id := getPropD b (S "id")
          let calls := [Call.sbGalleryDelete id]
          match delRes.error with
          | some m => (legacyCatch m, calls)
          | none => (jsonLegacy 200 (.obj [(S "success", .bool true)]), calls)
  else (jsonLegacy 405 (.obj [(S "error", .str (S "Method not allowed"))]), [])

/-- The legacy supabase-client journal handler (last section of
`functions/gallery.js`). -/
def legacyJournal (ev : Event) (selRes insRes updRes delRes : SBRes) : HResp × List Call :=
  if ev.httpMethod = S "OPTIONS" then (⟨200, corsLegacyAll, .raw []⟩, [])
  else if ev.httpMethod = S "GET" then
    match selRes.error with
    | some m => (legacyCatch m, [Call.sbJournalSelectAll])
    | none => (jsonLegacy 200 selRes.data, [Call.sbJournalSelectAll])
  else if ev.httpMethod = S "POST" then
    match ev.body with
    | none => (legacyCatch (S "SyntaxError"), [])
    | some raw =>
      match jsParse raw with
      | none => (legacyCatch (S "SyntaxError"), [])
      | some b =>
        match b with
        | .null => (legacyCatch (S "TypeError"), [])
        | _ =>
          let payload : JVal := .obj [(S "title", getPropD b (S "title")),
            (S "content", getPropD b (S "content")),
            (S "entry_date", getPropD b (S "entry_date"))]
          let calls := [Call.sbJournalInsert [payload]]
          match insRes.error with
          | some m => (legacyCatch m, calls)
          | none =>
            match jvIndex0 insRes.data with
            | none => (legacyCatch (S "TypeError"), calls)
            | some row => (jsonLegacy 201 row, calls)
  else if ev.httpMethod = S "PUT" then
    match ev.body with
    | none => (legacyCatch (S "SyntaxError"), [])
    | some raw =>
      match jsParse raw with
      | none => (legacyCatch (S "SyntaxError"), [])
      | some b =>
        match b with
        | .null => (legacyCatch (S "TypeError"), [])
        | _ =>
          let fields : JVal := .obj [(S "title", getPropD b (S "title")),
            (S "content", getPropD b (S "content")),
            (S "entry_date", getPropD b (S "entry_date"))]
          let calls := [Call.sbJournalUpdate (getPropD b (S "id")) fields]
          match updRes.error with
          | some m => (legacyCatch m, calls)
          | none =>
            match jvIndex0 updRes.data with
            | none => (legacyCatch (S "TypeError"), calls)
            | some row => (jsonLegacy 200 row, calls)
  else if ev.httpMethod = S "DELETE" then
    match ev.body with
    | none => (legacyCatch (S "SyntaxError"), [])
    | some raw =>
      match jsParse raw with
      | none => (legacyCatch (S "SyntaxError"), [])
      | some b =>
        match b with
        | .null => (legacyCatch (S "TypeError"), [])
        | _ =>
          let calls := [Call.sbJournalDelete (getPropD b (S "id"))]
          match delRes.error with
          | some m => (legacyCatch m, calls)
          | none => (jsonLegacy 200 (.obj [(S "success", .bool true)]), calls)
  else (jsonLegacy 405 (.obj [(S "error", .str (S "Method not allowed"))]), [])

/-! ### Legacy upload handler (first section of `src/unnamed/part_001`) -/
def jsonLegacyPost (status : Nat) (v : JVal) : HResp := ⟨status, corsLegacyPost, .jsonOf v⟩

/-- The upload handler catch: `500 { success: false, error: error.message }`. -/
def uploadCatch (msg : List Char) : HResp :=
  jsonLegacyPost 500 (.obj [(S "success", .bool false), (S "error", .str msg)])

/-- The legacy upload handler.  `ts` stands for `Date.now()`; the public
URL follows supabase-js `getPublicUrl`:
`<SUPABASE_URL>/storage/v1/object/public/<bucket>/<name>`. -/
def uploadHandler (env : Env) (ev : Event) (ts : Nat) (upRes insRes : SBRes) :
    HResp × List Call :=
  if ev.httpMethod = S "OPTIONS" then (⟨200, corsLegacyPost, .raw []⟩, [])
  else if ev.httpMethod ≠ S "POST" then
    (jsonLegacyPost 405 (.obj [(S "error", .str (S "Method not allowed"))]), [])
  else
    match ev.body with
    | none => (uploadCatch (S "SyntaxError"), [])
    | some raw =>
      match jsParse raw with
      | none => (uploadCatch (S "SyntaxError"), [])
      | some b =>
        match b with
        | .null => (uploadCatch (S "TypeError"), [])
        | _ =>
          let image := getPropD b (S "image")
          let filename := getPropD b (S "filename")
          let location := getPropD b (S "location")
          match image with
          | .str s =>
            match (s.splitOn ',').get? 1 with
            | none => (uploadCatch (S "TypeError"), [])
            | some seg =>
              let imageBuffer := nodeB64Decode seg
              match filename with
              | .str f =>
                let ext := (f.splitOn '.').getLastD []
                let uniqueFilename := S "gallery-" ++ natLex ts ++ S "." ++ ext
                let upCall := Call.sbStorageUpload uniqueFilename (S "image/" ++ ext) imageBuffer
                match upRes.error with
                | some m => (uploadCatch m, [upCall])
                | none =>
                  let publicUrl := (env.supabaseUrl).getD [] ++
                    S "/storage/v1/object/public/photos/" ++ uniqueFilename
                  let payload : JVal := .obj [(S "filename", .str uniqueFilename),
                    (S "location", location), (S "image_url", .str publicUrl),
                    (S "order_index", .num (natLex ts))]
                  let calls := [upCall, Call.sbGalleryInsert [payload]]
                  match insRes.error with
                  | some m => (uploadCatch m, calls)
                  | none =>
                    match jvIndex0 insRes.data with
                    | none => (uploadCatch (S "TypeError"), calls)
                    | some row =>
                      (jsonLegacyPost 200 (.obj [(S "success", .bool true),
                        (S "filename", .str uniqueFilename), (S "url", .str publicUrl),
                        (S "gallery_item", row)]), calls)
              | _ => (uploadCatch (S "TypeError"), [])
          | _ => (uploadCatch (S "TypeError"), [])

/-! ### Auth-check handler (second section of `src/unnamed/part_001`) -/
/-- `password === process.env.ADMIN_PASSWORD`: the right side is a string
when the variable is set and `undefined` when it is not. -/
def envStrictEq : JVal → Option (List Char) → Bool
  | .str s, some e => s = e
  | .undefined, none => true
  | _, _ => false

def authCheck (env : Env) (ev : Event) : HResp × List Call :=
  if ev.httpMethod = S "OPTIONS" then (⟨200, corsLegacyPost, .raw []⟩, [])
  else if ev.httpMethod ≠ S "POST" then
    (jsonLegacyPost 405 (.obj [(S "error", .str (S "Method not allowed"))]), [])
  else
    match ev.body with
    | none =>
      (jsonLegacyPost 500 (.obj [(S "success", .bool false), (S "message", .str (S "Server error"))]), [])
    | some raw =>
      match jsParse raw with
      | none =>
        (jsonLegacyPost 500 (.obj [(S "success", .bool false), (S "message", .str (S "Server error"))]), [])
      | some b =>
        if jvIsNull b then
          (jsonLegacyPost 500 (.obj [(S "success", .bool false), (S "message", .str (S "Server error"))]), [])
        else
          if envStrictEq (getPropD b (S "password")) env.adminPassword then
            (jsonLegacyPost 200 (.obj [(S "success", .bool true),
              (S "message", .str (S "Authentication successful"))]), [])
          else
            (jsonLegacyPost 401 (.obj [(S "success", .bool false),
              (S "message", .str (S "Invalid password"))]), [])

/-- Whether a gallery row carries a parseable object reference: the row is
truthy, its `image_url` is truthy, and `extractObjectPathJ` recovers a
nonempty object path from it. -/
def hasObjectRef (row : JVal) (bucket : List Char) : Bool :=
  jvTruthy row && jvTruthy (getPropD row (S "image_url")) &&
    (match extractObjectPathJ (getPropD row (S "image_url")) bucket with
     | some op => op ≠ []
     | none => false)

/-! ## Theorems -/

/-! ### Basic list facts used throughout -/
/-- Dropping the length of the left part of an append yields the right part. -/
theorem dropAppendLen (xs ys : List Char) : (xs ++ ys).drop xs.length = ys := by
  induction xs with
  | nil => simp
  | cons c t ih => simp [ih]

/-- Dropping fewer elements than the left part distributes over the append. -/
theorem dropAppendLe (xs ys : List Char) (n : Nat) (h : n ≤ xs.length) :
    (xs ++ ys).drop n = xs.drop n ++ ys := by
  induction xs generalizing n with
  | nil => simp at h; simp [h]
  | cons c t ih =>
    cases n with
    | zero => simp
    | succ m => simpa using ih m (by simpa using h)

theorem startsWith_append_self (p r : List Char) : startsWith p (p ++ r) = true := by
  induction p with
  | nil => rfl
  | cons c t ih => simp [startsWith, ih]

theorem startsWith_append_left (p xs ys : List Char) (h : p.length ≤ xs.length) :
    startsWith p (xs ++ ys) = startsWith p xs := by
  induction p generalizing xs with
  | nil => rfl
  | cons c t ih =>
    cases xs with
    | nil => simp at h
    | cons x xt => simp [startsWith, ih xt (by simpa using h)]

theorem length_le_of_startsWith (p s : List Char) (h : startsWith p s = true) :
    p.length ≤ s.length := by
  induction p generalizing s with
  | nil => simp
  | cons c t ih =>
    cases s with
    | nil => simp [startsWith] at h
    | cons x xt =>
      simp only [startsWith, Bool.and_eq_true, decide_eq_true_eq] at h
      simpa using ih xt h.2

theorem eq_append_of_startsWith (p s : List Char) (h : startsWith p s = true) :
    s = p ++ s.drop p.length := by
  induction p generalizing s with
  | nil => simp
  | cons c t ih =>
    cases s with
    | nil => simp [startsWith] at h
    | cons x xt =>
      simp only [startsWith, Bool.and_eq_true, decide_eq_true_eq] at h
      simpa [h.1] using ih xt h.2

example : jsParse (S "\x7b\"id\": 7, \"a\": [true, null, \"x\"]\x7d") =
    some (.obj [(S "id", .num (S "7")),
      (S "a", .arr [.bool true, .null, .str (S "x")])]) := by rfl

example : jsParse (S "null") = some .null := by rfl

example : jsParse (S "nullx") = none := by rfl

example : jsParse (S "") = none := by rfl

example : jsParse (S "-12.5e+3") = some (.num (S "-12.5e+3")) := by rfl

example : jsParse (S "01") = none := by rfl

example : jsParse (S "\"a\\nb\\u0041\"") = some (.str (S "a\nbA")) := by rfl

example : decodeURIComponent (S "a%20b%C3%A9") = some (S "a bé") := by rfl

example : decodeURIComponent (S "a%2") = none := by rfl

example : encodeURIComponent (S "a b/é") = S "a%20b%2F%C3%A9" := by rfl

example : nodeB64Decode (S "aGVsbG8=") = [104, 101, 108, 108, 111] := by rfl

example : nodeB64Decode (S "QQ==") = [65] := by rfl

example : cleanName (S "My Photo.PNG") = S "my-photo.png" := by rfl

example : cleanName (S "--a--b--") = S "a-b" := by rfl

example : cleanName (S "-") = S "" := by rfl

theorem jvToS_eq_jvToString (v : JVal) : jvToS v = jvToString v := by
  cases v <;> simp [jvToS, jvToString]

example : parseDataUrl (.str (S "data:image/png;base64,iVBORw0KG")) =
    some ⟨S "image/png", nodeB64Decode (S "iVBORw0KG")⟩ := by rfl

example : parseDataUrl .undefined = none := by rfl

example : parseDataUrl (.str (S "data:;base64,AAAA")) = none := by rfl

/-! ### Lemmas about `cleanName` -/
theorem asciiLower_of_good (c : Char) (h : goodChar c = true) : asciiLower c = c := by
  unfold asciiLower
  split
  · rename_i hAZ
    simp only [goodChar, Bool.or_eq_true, decide_eq_true_eq] at h
    exfalso
    rcases h with h | h | h | h | h
    · exact absurd (le_trans h.1 hAZ.2) (by decide)
    · exact absurd (le_trans hAZ.1 h.2) (by decide)
    · subst h; exact absurd hAZ (by decide)
    · subst h; exact absurd hAZ (by decide)
    · subst h; exact absurd hAZ (by decide)
  · rfl

theorem rbr_all_good (b : Bool) (s : List Char) :
    (replaceBadRuns b s).all goodChar = true := by
  induction s generalizing b with
  | nil => rfl
  | cons c t ih =>
    unfold replaceBadRuns
    by_cases hc : goodChar c = true
    · simp [hc, ih]
    · simp only [Bool.not_eq_true] at hc
      have hgood : goodChar '-' = true := by decide
      cases b <;> simp [hc, ih, hgood]

theorem all_collapse (p : Char → Bool) (b : Bool) (s : List Char) (h : s.all p = true) :
    (collapseHyphens b s).all p = true := by
  induction s generalizing b with
  | nil => rfl
  | cons c t ih =>
    simp only [List.all_cons, Bool.and_eq_true] at h
    unfold collapseHyphens
    by_cases hc : c = '-'
    · subst hc
      cases b <;> simp [ih _ h.2, h.1]
    · simp [hc, ih _ h.2, h.1]

theorem all_dropLast (p : Char → Bool) (s : List Char) (h : s.all p = true) :
    s.dropLast.all p = true := by
  rw [List.all_eq_true] at h ⊢
  intro c hc
  exact h c (List.Sublist.subset (List.dropLast_sublist s) hc)

theorem all_dropLastHyphen (p : Char → Bool) (s : List Char) (h : s.all p = true) :
    (dropLastHyphen s).all p = true := by
  unfold dropLastHyphen
  split
  · exact all_dropLast p s h
  · exact h

theorem all_stripEdge (p : Char → Bool) (s : List Char) (h : s.all p = true) :
    (stripEdgeHyphens s).all p = true := by
  cases s with
  | nil => rfl
  | cons c t =>
    simp only [List.all_cons, Bool.and_eq_true] at h
    by_cases hc : c = '-'
    · simpa [stripEdgeHyphens, hc] using all_dropLastHyphen p t h.2
    · simpa [stripEdgeHyphens, hc] using
        all_dropLastHyphen p (c :: t) (by simp [h.1, h.2])

theorem headHyphen_collapse_true (s : List Char) :
    headHyphen (collapseHyphens true s) = false := by
  induction s with
  | nil => rfl
  | cons c t ih =>
    unfold collapseHyphens
    by_cases hc : c = '-'
    · simp [hc, ih]
    · simp [hc, headHyphen]

theorem noDouble_cons (a : Char) (X : List Char)
    (ha : a ≠ '-' ∨ headHyphen X = false) (hX : noDoubleHyphen X = true) :
    noDoubleHyphen (a :: X) = true := by
  cases X with
  | nil => rfl
  | cons x xt =>
    have hx : (decide (a = '-') && decide (x = '-')) = false := by
      rcases ha with ha | ha
      · simp [ha]
      · have hx2 : ¬ x = '-' := by
          simp only [headHyphen, List.head?, decide_eq_false_iff_not] at ha
          intro he
          rw [he] at ha
          simp at ha
        simp [hx2]
    simp [noDoubleHyphen, hx, hX]

theorem noDouble_tail (a : Char) (X : List Char) (h : noDoubleHyphen (a :: X) = true) :
    noDoubleHyphen X = true := by
  cases X with
  | nil => rfl
  | cons x xt =>
    simp only [noDoubleHyphen, Bool.and_eq_true] at h
    exact h.2

theorem noDouble_collapse (b : Bool) (s : List Char) :
    noDoubleHyphen (collapseHyphens b s) = true := by
  induction s generalizing b with
  | nil => rfl
  | cons c t ih =>
    unfold collapseHyphens
    by_cases hc : c = '-'
    · subst hc
      cases b with
      | true => simpa using ih true
      | false =>
        simpa using noDouble_cons '-' _ (Or.inr (headHyphen_collapse_true t)) (ih true)
    · cases b <;>
      · simp only [hc, if_neg hc]
        exact noDouble_cons c _ (Or.inl hc) (ih false)

theorem headHyphen_dropLast (s : List Char) (h : headHyphen s = false) :
    headHyphen s.dropLast = false := by
  cases s with
  | nil => rfl
  | cons c t =>
    cases t with
    | nil => rfl
    | cons d u =>
      rw [List.dropLast_cons₂]
      simpa [headHyphen] using h

theorem headHyphen_dropLastHyphen (s : List Char) (h : headHyphen s = false) :
    headHyphen (dropLastHyphen s) = false := by
  unfold dropLastHyphen
  split
  · exact headHyphen_dropLast s h
  · exact h

theorem noDouble_dropLast (s : List Char) (h : noDoubleHyphen s = true) :
    noDoubleHyphen s.dropLast = true := by
  induction s with
  | nil => rfl
  | cons c t ih =>
    cases t with
    | nil => rfl
    | cons d u =>
      rw [List.dropLast_cons₂]
      simp only [noDoubleHyphen, Bool.and_eq_true] at h
      refine noDouble_cons c _ ?_ (ih h.2)
      by_cases hch : c = '-'
      · refine Or.inr (headHyphen_dropLast (d :: u) ?_)
        simp only [headHyphen, List.head?, decide_eq_false_iff_not]
        intro he
        have hd := Option.some.inj he
        rw [hch, hd] at h
        simp at h
      · exact Or.inl hch

theorem noDouble_trailing_pair (w : List Char) :
    noDoubleHyphen (w ++ ['-', '-']) = false := by
  induction w with
  | nil => decide
  | cons a w2 ih =>
    cases w2 with
    | nil => simp [noDoubleHyphen]
    | cons b w3 =>
      simp only [List.cons_append, noDoubleHyphen] at ih ⊢
      simp [ih]

theorem concat_of_lastHyphen (t : List Char) (h : lastHyphen t = true) :
    t = t.dropLast ++ ['-'] := by
  simp only [lastHyphen, decide_eq_true_eq] at h
  exact (List.dropLast_append_getLast? '-' h).symm

theorem lastHyphen_dropLastHyphen (t : List Char) (h : noDoubleHyphen t = true) :
    lastHyphen (dropLastHyphen t) = false := by
  unfold dropLastHyphen
  by_cases hl : lastHyphen t = true
  · rw [if_pos hl]
    by_contra hfalse
    rw [Bool.not_eq_false] at hfalse
    have h1 := concat_of_lastHyphen _ hfalse
    have h2 := concat_of_lastHyphen _ hl
    rw [h1] at h2
    rw [h2, List.append_assoc] at h
    have hpair := noDouble_trailing_pair t.dropLast.dropLast
    simp only [show (['-'] ++ ['-'] : List Char) = ['-', '-'] from rfl] at h
    rw [hpair] at h
    exact absurd h (by simp)
  · simp only [Bool.not_eq_true] at hl
    rw [hl, if_neg (by simp)]
    exact hl

theorem noDouble_dropLastHyphen (t : List Char) (h : noDoubleHyphen t = true) :
    noDoubleHyphen (dropLastHyphen t) = true := by
  unfold dropLastHyphen
  split
  · exact noDouble_dropLast t h
  · exact h

theorem stripEdge_noDouble (s : List Char) (h : noDoubleHyphen s = true) :
    noDoubleHyphen (stripEdgeHyphens s) = true := by
  cases s with
  | nil => rfl
  | cons c t =>
    simp only [stripEdgeHyphens]
    by_cases hc : c = '-'
    · rw [if_pos hc]
      exact noDouble_dropLastHyphen t (noDouble_tail c t h)
    · rw [if_neg hc]
      exact noDouble_dropLastHyphen (c :: t) h

theorem stripEdge_head (s : List Char) (h : noDoubleHyphen s = true) :
    headHyphen (stripEdgeHyphens s) = false := by
  cases s with
  | nil => rfl
  | cons c t =>
    simp only [stripEdgeHyphens]
    by_cases hc : c = '-'
    · rw [if_pos hc]
      refine headHyphen_dropLastHyphen t ?_
      cases t with
      | nil => rfl
      | cons d u =>
        simp only [noDoubleHyphen, Bool.and_eq_true] at h
        simp only [headHyphen, List.head?, decide_eq_false_iff_not]
        intro he
        have hd := Option.some.inj he
        rw [hc, hd] at h
        simp at h
    · rw [if_neg hc]
      refine headHyphen_dropLastHyphen (c :: t) ?_
      simp [headHyphen, hc]

theorem stripEdge_last (s : List Char) (h : noDoubleHyphen s = true) :
    lastHyphen (stripEdgeHyphens s) = false := by
  cases s with
  | nil => rfl
  | cons c t =>
    simp only [stripEdgeHyphens]
    by_cases hc : c = '-'
    · rw [if_pos hc]
      exact lastHyphen_dropLastHyphen t (noDouble_tail c t h)
    · rw [if_neg hc]
      exact lastHyphen_dropLastHyphen (c :: t) h

theorem map_asciiLower_id (s : List Char) (h : s.all goodChar = true) :
    s.map asciiLower = s := by
  induction s with
  | nil => rfl
  | cons c t ih =>
    simp only [List.all_cons, Bool.and_eq_true] at h
    simp [asciiLower_of_good c h.1, ih h.2]

theorem rbr_id (s : List Char) (h : s.all goodChar = true) :
    replaceBadRuns false s = s := by
  induction s with
  | nil => rfl
  | cons c t ih =>
    simp only [List.all_cons, Bool.and_eq_true] at h
    simp [replaceBadRuns, h.1, ih h.2]

theorem collapse_id (s : List Char) (h : noDoubleHyphen s = true) :
    collapseHyphens false s = s ∧
      (headHyphen s = false → collapseHyphens true s = s) := by
  induction s with
  | nil => exact ⟨rfl, fun _ => rfl⟩
  | cons c t ih =>
    have iht := ih (noDouble_tail c t h)
    by_cases hc : c = '-'
    · have hht : headHyphen t = false := by
        cases t with
        | nil => rfl
        | cons d u =>
          simp only [noDoubleHyphen, Bool.and_eq_true] at h
          simp only [headHyphen, List.head?, decide_eq_false_iff_not]
          intro he
          have hd := Option.some.inj he
          rw [hc, hd] at h
          simp at h
      constructor
      · simp [collapseHyphens, hc, iht.2 hht]
      · intro hh
        rw [hc] at hh
        simp [headHyphen] at hh
    · constructor
      · simp [collapseHyphens, hc, iht.1]
      · intro _
        simp [collapseHyphens, hc, iht.1]

theorem stripEdge_id (s : List Char) (hh : headHyphen s = false)
    (hl : lastHyphen s = false) : stripEdgeHyphens s = s := by
  cases s with
  | nil => rfl
  | cons c t =>
    have hc : ¬ c = '-' := by
      simp only [headHyphen, List.head?, decide_eq_false_iff_not] at hh
      intro he
      rw [he] at hh
      simp at hh
    simp only [stripEdgeHyphens, dropLastHyphen]
    rw [if_neg hc, hl, if_neg (by simp)]

/-- C3: filename sanitization is idempotent, and for every input the output
of `cleanName` contains only characters in `[a-z0-9._-]`, has no leading
hyphen, no trailing hyphen, and no two consecutive hyphens. -/
theorem cleanName_idempotent_and_shape (s : List Char) :
    cleanName (cleanName s) = cleanName s ∧
    (cleanName s).all goodChar = true ∧
    headHyphen (cleanName s) = false ∧
    lastHyphen (cleanName s) = false ∧
    noDoubleHyphen (cleanName s) = true := by
  have h1 : (replaceBadRuns false ((s.map asciiLower))).all goodChar = true :=
    rbr_all_good false (s.map asciiLower)
  have h2 : (collapseHyphens false (replaceBadRuns false (s.map asciiLower))).all goodChar = true :=
    all_collapse goodChar false _ h1
  have h2nd : noDoubleHyphen (collapseHyphens false (replaceBadRuns false (s.map asciiLower))) = true :=
    noDouble_collapse false _
  have hall : (cleanName s).all goodChar = true := all_stripEdge goodChar _ h2
  have hnd : noDoubleHyphen (cleanName s) = true := stripEdge_noDouble _ h2nd
  have hh : headHyphen (cleanName s) = false := stripEdge_head _ h2nd
  have hl : lastHyphen (cleanName s) = false := stripEdge_last _ h2nd
  refine ⟨?_, hall, hh, hl, hnd⟩
  show cleanName (cleanName s) = cleanName s
  rw [cleanName, map_asciiLower_id _ hall, rbr_id _ hall, (collapse_id _ hnd).1,
    stripEdge_id _ hh hl]

/-! ### Lemmas about `findMarker` and `extractObjectPath` -/
theorem findMarker_sound (pat s : List Char) (i : Nat) (h : findMarker pat s = some i) :
    startsWith pat (s.drop i) = true := by
  induction s generalizing i with
  | nil =>
    unfold findMarker at h
    split at h
    · rename_i hs
      cases h
      exact hs
    · cases h
  | cons c t ih =>
    unfold findMarker at h
    split at h
    · rename_i hs
      cases h
      exact hs
    · rcases Option.map_eq_some'.mp h with ⟨j, hj, rfl⟩
      simpa using ih j hj

theorem findMarker_complete (pat s : List Char) (i : Nat)
    (h : startsWith pat (s.drop i) = true) :
    ∃ j, j ≤ i ∧ findMarker pat s = some j := by
  induction s generalizing i with
  | nil =>
    simp only [List.drop_nil] at h
    exact ⟨0, Nat.zero_le i, by simp [findMarker, h]⟩
  | cons c t ih =>
    by_cases hs : startsWith pat (c :: t) = true
    · exact ⟨0, Nat.zero_le i, by simp [findMarker, hs]⟩
    · cases i with
      | zero => exact absurd h hs
      | succ n =>
        simp only [List.drop_succ_cons] at h
        obtain ⟨j, hj, hfm⟩ := ih n h
        exact ⟨j + 1, Nat.succ_le_succ hj, by simp [findMarker, hs, hfm]⟩

theorem findMarker_none (pat s : List Char) (hp : pat ≠ [])
    (h : ∀ k, k < s.length → startsWith pat (s.drop k) = false) :
    findMarker pat s = none := by
  induction s with
  | nil =>
    obtain ⟨p, ps, rfl⟩ := List.exists_cons_of_ne_nil hp
    rfl
  | cons c t ih =>
    have h0 : startsWith pat (c :: t) = false := by simpa using h 0 (by simp)
    have ht : findMarker pat t = none := by
      refine ih (fun k hk => ?_)
      simpa using h (k + 1) (by simpa using Nat.succ_lt_succ hk)
    simp [findMarker, h0, ht]

theorem markerOf_ne_nil (bucket : List Char) : markerOf bucket ≠ [] := by
  unfold markerOf
  intro h
  rw [List.append_assoc] at h
  rcases List.append_eq_nil.mp h with ⟨h1, _⟩
  exact absurd h1 (by decide)

theorem percentLex_free (k : List Char) (h : k.all (fun c => c ≠ '%') = true) :
    percentLex k = some (k.map Sum.inl) := by
  induction k with
  | nil => rfl
  | cons c t ih =>
    simp only [List.all_cons, Bool.and_eq_true, decide_eq_true_eq] at h
    rw [List.map_cons, percentLex.eq_def]
    simp [h.1, ih h.2]

theorem utf8Assemble_inl (k : List Char) : utf8Assemble (k.map Sum.inl) = some k := by
  induction k with
  | nil => rfl
  | cons c t ih =>
    rw [List.map_cons,
      show utf8Assemble (Sum.inl c :: List.map Sum.inl t) =
        (utf8Assemble (List.map Sum.inl t)).map (fun r => c :: r) from rfl,
      ih]
    rfl

theorem decode_percent_free (k : List Char) (h : k.all (fun c => c ≠ '%') = true) :
    decodeURIComponent k = some k := by
  rw [decodeURIComponent, percentLex_free k h]
  exact utf8Assemble_inl k

/-- C1: for every storage key free of `%` (that is, one that needs no
URL-decoding — every key the handler itself generates) and every base URL in
which the marker does not occur early, extracting the object path from the
public URL built for a bucket and key returns the key unchanged; and for any
URL that does not contain the marker at all, extraction returns `none`. -/
theorem extractObjectPath_objectPublic_roundtrip (base bucket k url : List Char) :
    ((∀ i, i < base.length →
        startsWith (markerOf bucket) ((base ++ markerOf bucket).drop i) = false) →
      k.all (fun c => c ≠ '%') = true →
      extractObjectPath (objectPublicUrl base bucket k) bucket = some k) ∧
    ((∀ i, i < url.length → startsWith (markerOf bucket) (url.drop i) = false) →
      extractObjectPath url bucket = none) := by
  constructor
  · intro hbase hk
    have hurl : objectPublicUrl base bucket k = base ++ (markerOf bucket ++ k) := by
      simp [objectPublicUrl, markerOf, List.append_assoc]
    have hne : objectPublicUrl base bucket k ≠ [] := by
      rw [hurl]
      intro h
      rcases List.append_eq_nil.mp h with ⟨_, h2⟩
      rcases List.append_eq_nil.mp h2 with ⟨h3, _⟩
      exact markerOf_ne_nil bucket h3
    have hocc : startsWith (markerOf bucket)
        ((base ++ (markerOf bucket ++ k)).drop base.length) = true := by
      rw [dropAppendLen]
      exact startsWith_append_self _ _
    obtain ⟨j, hj, hfm⟩ := findMarker_complete (markerOf bucket) _ _ hocc
    have hj_eq : j = base.length := by
      rcases Nat.lt_or_ge j base.length with hlt | hge
      · exfalso
        have hs := findMarker_sound _ _ _ hfm
        have hd : (base ++ (markerOf bucket ++ k)).drop j =
            ((base ++ markerOf bucket).drop j) ++ k := by
          rw [← List.append_assoc]
          exact dropAppendLe (base ++ markerOf bucket) k j
            (le_trans (le_of_lt hlt) (by simp))
        rw [hd] at hs
        have hlen : (markerOf bucket).length ≤ ((base ++ markerOf bucket).drop j).length := by
          rw [List.length_drop, List.length_append]
          omega
        rw [startsWith_append_left _ _ _ hlen] at hs
        rw [hbase j hlt] at hs
        exact Bool.false_ne_true hs
      · omega
    subst hj_eq
    rw [hurl] at hne ⊢
    unfold extractObjectPath
    rw [if_neg hne]
    simp only [hfm]
    have hdrop : (base ++ (markerOf bucket ++ k)).drop
        (base.length + (markerOf bucket).length) = k := by
      rw [← List.append_assoc, ← List.length_append]
      exact dropAppendLen _ _
    rw [hdrop]
    exact decode_percent_free k hk
  · intro h
    unfold extractObjectPath
    by_cases hu : url = []
    · simp [hu]
    · rw [if_neg hu]
      simp only [findMarker_none (markerOf bucket) url (markerOf_ne_nil bucket) h]

/-- Witness for C1: concrete base URL, bucket, storage key and a URL
without the marker. -/
theorem extractObjectPath_objectPublic_roundtrip_witness :
    extractObjectPath (objectPublicUrl (S "https://example.supabase.co") (S "photos")
        (S "uploads/1700000000000_my-photo.png")) (S "photos") =
      some (S "uploads/1700000000000_my-photo.png") ∧
    extractObjectPath (S "https://example.com/none") (S "photos") = none :=
  ⟨(extractObjectPath_objectPublic_roundtrip (S "https://example.supabase.co") (S "photos")
      (S "uploads/1700000000000_my-photo.png") (S "https://example.com/none")).1
      (by decide) (by decide),
   (extractObjectPath_objectPublic_roundtrip (S "https://example.supabase.co") (S "photos")
      (S "uploads/1700000000000_my-photo.png") (S "https://example.com/none")).2
      (by decide)⟩

/-- C4: a gallery POST whose body carries a valid image and filename and
whose storage upload returns non-ok answers 502 `upload failed`, and its
call trace contains no database insert. -/
theorem galleryPost_uploadFail_no_insert (env : Env) (cfg : GCfg)
    (bodyRaw : Option (List Char)) (ts : Nat)
    (listResp upResp insResp updResp getResp delResp : FetchResp)
    (fs : List (List Char × JVal)) (f : List Char) (pd : DataParts)
    (hcfg : getCfgGallery env = some cfg)
    (hparse : jsParse (orFalsy bodyRaw (S "\x7b\x7d")) = some (.obj fs))
    (himg : jvTruthy (jvOr (getPropD (.obj fs) (S "image"))
      (getPropD (.obj fs) (S "dataUrl"))) = true)
    (hpd : parseDataUrl (jvOr (getPropD (.obj fs) (S "image"))
      (getPropD (.obj fs) (S "dataUrl"))) = some pd)
    (hfn : getPropD (.obj fs) (S "filename") = .str f)
    (hf : f ≠ [])
    (hup : upResp.ok = false) :
    (netlifyGallery env ⟨S "POST", bodyRaw, none, none⟩ ts
        listResp upResp insResp updResp getResp delResp).fst.statusCode = 502 ∧
    (netlifyGallery env ⟨S "POST", bodyRaw, none, none⟩ ts
        listResp upResp insResp updResp getResp delResp).fst.body =
      .jsonOf (errObj (S "upload failed") upResp.bodyText) ∧
    ((netlifyGallery env ⟨S "POST", bodyRaw, none, none⟩ ts
        listResp upResp insResp updResp getResp delResp).snd.all
      (fun c => ! c.isDbInsert)) = true := by
  have hev : netlifyGallery env ⟨S "POST", bodyRaw, none, none⟩ ts
      listResp upResp insResp updResp getResp delResp =
      galleryPostBranch cfg bodyRaw ts upResp insResp := by
    simp only [netlifyGallery, hcfg]
    rw [if_neg (by decide), if_neg (by decide), if_pos (by decide)]
  have hbr : galleryPostBranch cfg bodyRaw ts upResp insResp =
      (jsonNetlify 502 (errObj (S "upload failed") upResp.bodyText),
        [Call.storageUpload (objectWriteUrl cfg.base cfg.bucket
          (S "uploads/" ++ natLex ts ++ S "_" ++ cleanName f)) pd.contentType pd.buffer]) := by
    have hftr : jvTruthy (JVal.str f) = true := by simp [jvTruthy, hf]
    simp only [galleryPostBranch, hparse]
    rw [if_neg (by simp [himg, hfn, hftr])]
    simp only [hpd, hfn, hup]
    rw [if_pos trivial]
  rw [hev, hbr]
  exact ⟨rfl, rfl, rfl⟩

/-- Witness for C4: a concrete environment, POST body, and failing upload. -/
theorem galleryPost_uploadFail_no_insert_witness :
    (netlifyGallery
        ⟨none, some (S "https://example.supabase.co"), none, some (S "key123"),
          none, none, none, none, none, none, none, none, none⟩
        ⟨S "POST", some (S "\x7b\"image\":\"data:image/png;base64,AAAA\",\"filename\":\"a.png\"\x7d"),
          none, none⟩
        1700 ⟨true, 200, S "[]"⟩ ⟨false, 500, S "denied"⟩ ⟨true, 200, S "[]"⟩
        ⟨true, 200, S "[]"⟩ ⟨true, 200, S "[]"⟩ ⟨true, 200, S "[]"⟩).fst.statusCode = 502 ∧
    (netlifyGallery
        ⟨none, some (S "https://example.supabase.co"), none, some (S "key123"),
          none, none, none, none, none, none, none, none, none⟩
        ⟨S "POST", some (S "\x7b\"image\":\"data:image/png;base64,AAAA\",\"filename\":\"a.png\"\x7d"),
          none, none⟩
        1700 ⟨true, 200, S "[]"⟩ ⟨false, 500, S "denied"⟩ ⟨true, 200, S "[]"⟩
        ⟨true, 200, S "[]"⟩ ⟨true, 200, S "[]"⟩ ⟨true, 200, S "[]"⟩).fst.body =
      .jsonOf (errObj (S "upload failed") (S "denied")) ∧
    ((netlifyGallery
        ⟨none, some (S "https://example.supabase.co"), none, some (S "key123"),
          none, none, none, none, none, none, none, none, none⟩
        ⟨S "POST", some (S "\x7b\"image\":\"data:image/png;base64,AAAA\",\"filename\":\"a.png\"\x7d"),
          none, none⟩
        1700 ⟨true, 200, S "[]"⟩ ⟨false, 500, S "denied"⟩ ⟨true, 200, S "[]"⟩
        ⟨true, 200, S "[]"⟩ ⟨true, 200, S "[]"⟩ ⟨true, 200, S "[]"⟩).snd.all
      (fun c => ! c.isDbInsert)) = true :=
  galleryPost_uploadFail_no_insert
    ⟨none, some (S "https://example.supabase.co"), none, some (S "key123"),
      none, none, none, none, none, none, none, none, none⟩
    ⟨S "https://example.supabase.co", S "key123", S "photos", S "gallery"⟩
    (some (S "\x7b\"image\":\"data:image/png;base64,AAAA\",\"filename\":\"a.png\"\x7d"))
    1700 ⟨true, 200, S "[]"⟩ ⟨false, 500, S "denied"⟩ ⟨true, 200, S "[]"⟩
    ⟨true, 200, S "[]"⟩ ⟨true, 200, S "[]"⟩ ⟨true, 200, S "[]"⟩
    [(S "image", .str (S "data:image/png;base64,AAAA")), (S "filename", .str (S "a.png"))]
    (S "a.png") ⟨S "image/png", nodeB64Decode (S "AAAA")⟩
    rfl rfl rfl rfl rfl (by decide) rfl

/-- C5: a gallery DELETE whose row read and row delete both succeed answers
200 `{ok:true}` — the outcome of the best-effort object deletion is never
consulted (the model takes no such response at all) — and when the row's
stored reference is absent or unparseable, the call trace contains no
storage-delete call. -/
theorem galleryDelete_row_authoritative (env : Env) (cfg : GCfg)
    (bodyRaw : Option (List Char)) (ts : Nat)
    (listResp upResp insResp updResp getResp delResp : FetchResp)
    (b jv : JVal) (elems : List JVal)
    (hcfg : getCfgGallery env = some cfg)
    (hparse : jsParse (orFalsy bodyRaw (S "\x7b\x7d")) = some b)
    (hid : jvTruthy (getPropD (jvOr b (.obj [])) (S "id")) = true)
    (hget : getResp.ok = true)
    (hjson : jsParse getResp.bodyText = some jv)
    (hiter : jvIterate jv = some elems)
    (hdel : delResp.ok = true) :
    (netlifyGallery env ⟨S "DELETE", bodyRaw, none, none⟩ ts
        listResp upResp insResp updResp getResp delResp).fst =
      jsonNetlify 200 (.obj [(S "ok", .bool true)]) ∧
    (hasObjectRef (elems.headD .undefined) cfg.bucket = false →
      ((netlifyGallery env ⟨S "DELETE", bodyRaw, none, none⟩ ts
          listResp upResp insResp updResp getResp delResp).snd.all
        (fun c => ! c.isStorageDelete)) = true) := by
  have hev : netlifyGallery env ⟨S "DELETE", bodyRaw, none, none⟩ ts
      listResp upResp insResp updResp getResp delResp =
      galleryDeleteBranch cfg bodyRaw getResp delResp := by
    simp only [netlifyGallery, hcfg]
    rw [if_neg (by decide), if_neg (by decide), if_neg (by decide), if_neg (by decide),
      if_pos (by decide)]
  rw [hev]
  simp only [galleryDeleteBranch, hparse]
  rw [if_neg (by simp [hid])]
  simp only [hget]
  rw [if_neg (by simp)]
  simp only [hjson, hiter, hdel]
  rw [if_neg (by simp)]
  refine ⟨rfl, fun href => ?_⟩
  rw [List.all_append]
  refine Bool.and_eq_true_iff.mpr ⟨rfl, ?_⟩
  unfold galleryObjDeleteCalls
  by_cases hc : jvTruthy (elems.headD JVal.undefined) = true ∧
      jvTruthy (getPropD (elems.headD JVal.undefined) (S "image_url")) = true
  · rw [if_pos hc]
    unfold hasObjectRef at href
    rw [hc.1, hc.2] at href
    simp only [Bool.true_and] at href
    cases hext : extractObjectPathJ (getPropD (elems.headD JVal.undefined) (S "image_url"))
        cfg.bucket with
    | none => rfl
    | some op =>
      rw [hext] at href
      have hop : op = [] := by simpa using href
      subst hop
      rfl
  · rw [if_neg hc]
    rfl

/-- Witness for C5: a concrete DELETE of a row with no image reference. -/
theorem galleryDelete_row_authoritative_witness :
    (netlifyGallery
        ⟨none, some (S "https://example.supabase.co"), none, some (S "key123"),
          none, none, none, none, none, none, none, none, none⟩
        ⟨S "DELETE", some (S "\x7b\"id\":7\x7d"), none, none⟩
        1700 ⟨true, 200, S "[]"⟩ ⟨true, 200, S "[]"⟩ ⟨true, 200, S "[]"⟩ ⟨true, 200, S "[]"⟩
        ⟨true, 200, S "[\x7b\"id\":7\x7d]"⟩ ⟨true, 204, S ""⟩).fst =
      jsonNetlify 200 (.obj [(S "ok", .bool true)]) ∧
    ((netlifyGallery
        ⟨none, some (S "https://example.supabase.co"), none, some (S "key123"),
          none, none, none, none, none, none, none, none, none⟩
        ⟨S "DELETE", some (S "\x7b\"id\":7\x7d"), none, none⟩
        1700 ⟨true, 200, S "[]"⟩ ⟨true, 200, S "[]"⟩ ⟨true, 200, S "[]"⟩ ⟨true, 200, S "[]"⟩
        ⟨true, 200, S "[\x7b\"id\":7\x7d]"⟩ ⟨true, 204, S ""⟩).snd.all
      (fun c => ! c.isStorageDelete)) = true := by
  have h := galleryDelete_row_authoritative
    ⟨none, some (S "https://example.supabase.co"), none, some (S "key123"),
      none, none, none, none, none, none, none, none, none⟩
    ⟨S "https://example.supabase.co", S "key123", S "photos", S "gallery"⟩
    (some (S "\x7b\"id\":7\x7d")) 1700
    ⟨true, 200, S "[]"⟩ ⟨true, 200, S "[]"⟩ ⟨true, 200, S "[]"⟩ ⟨true, 200, S "[]"⟩
    ⟨true, 200, S "[\x7b\"id\":7\x7d]"⟩ ⟨true, 204, S ""⟩
    (.obj [(S "id", .num (S "7"))]) (.arr [.obj [(S "id", .num (S "7"))]])
    [.obj [(S "id", .num (S "7"))]]
    rfl rfl rfl rfl rfl rfl rfl
  exact ⟨h.1, h.2 rfl⟩

/-! ### Lemmas about the spread of the GET normalization -/
theorem lookupLast_append2 (fs : List (List Char × JVal)) (k1 k2 : List Char)
    (v1 v2 : JVal) (hne : k2 ≠ k1) :
    lookupLast (fs ++ [(k1, v1), (k2, v2)]) k1 = some v1 ∧
    lookupLast (fs ++ [(k1, v1), (k2, v2)]) k2 = some v2 := by
  unfold lookupLast
  rw [List.foldl_append, List.foldl_append]
  constructor
  · simp [hne]
  · simp

theorem getPropD_spread2_k1 (r : JVal) (k1 k2 : List Char) (v1 v2 : JVal) (hne : k2 ≠ k1) :
    getPropD (jvSpread2 r k1 v1 k2 v2) k1 = v1 := by
  have h := (lookupLast_append2 (jvFields r) k1 k2 v1 v2 hne).1
  show (lookupLast (jvFields r ++ [(k1, v1), (k2, v2)]) k1).getD .undefined = v1
  rw [h]
  rfl

theorem getPropD_spread2_k2 (r : JVal) (k1 k2 : List Char) (v1 v2 : JVal) (hne : k2 ≠ k1) :
    getPropD (jvSpread2 r k1 v1 k2 v2) k2 = v2 := by
  have h := (lookupLast_append2 (jvFields r) k1 k2 v1 v2 hne).2
  show (lookupLast (jvFields r ++ [(k1, v1), (k2, v2)]) k2).getD .undefined = v2
  rw [h]
  rfl

theorem resolveGalleryRow_fields (r r2 : JVal) (h : resolveGalleryRow r = some r2) :
    getPropD r2 (S "image_url") =
      jvOr (getPropD r (S "image_url")) (jvOr (getPropD r (S "src")) .null) ∧
    getPropD r2 (S "src") = getPropD r2 (S "image_url") := by
  unfold resolveGalleryRow at h
  cases hiu : getProp r (S "image_url") with
  | none => rw [hiu] at h; simp at h
  | some iuv =>
    cases hsr : getProp r (S "src") with
    | none => rw [hiu, hsr] at h; simp at h
    | some srv =>
      rw [hiu, hsr] at h
      simp only [Option.some.injEq] at h
      have hdne : S "src" ≠ S "image_url" := by decide
      have e1 := getPropD_spread2_k1 r (S "image_url") (S "src")
        (jvOr iuv (jvOr srv .null)) (jvOr iuv (jvOr srv .null)) hdne
      have e2 := getPropD_spread2_k2 r (S "image_url") (S "src")
        (jvOr iuv (jvOr srv .null)) (jvOr iuv (jvOr srv .null)) hdne
      have hriu : getPropD r (S "image_url") = iuv := by rw [getPropD, hiu]; rfl
      have hrsr : getPropD r (S "src") = srv := by rw [getPropD, hsr]; rfl
      rw [← h, e1, e2, hriu, hrsr]
      exact ⟨rfl, rfl⟩

/-- C6 counterexample: on a successful GET over one row whose only raw
reference field is a populated `path`, the handler attaches `null` — not a
URL computed from `path` — under `image_url` and `src`; the claim that the
attached URL is computed from whichever of
`image_url`/`path`/`object_path`/`src` is populated is therefore false. -/
theorem galleryGet_path_ignored_counterexample :
    (netlifyGallery
        ⟨none, some (S "https://example.supabase.co"), none, some (S "key123"),
          none, none, none, none, none, none, none, none, none⟩
        ⟨S "GET", none, none, none⟩ 0
        ⟨true, 200, S "[\x7b\"id\":1,\"path\":\"photos/x.jpg\"\x7d]"⟩
        ⟨true, 200, S "[]"⟩ ⟨true, 200, S "[]"⟩ ⟨true, 200, S "[]"⟩
        ⟨true, 200, S "[]"⟩ ⟨true, 200, S "[]"⟩).fst =
      jsonNetlify 200 (.arr [.obj [(S "id", .num (S "1")),
        (S "path", .str (S "photos/x.jpg")),
        (S "image_url", .null), (S "src", .null)]]) ∧
    jvTruthy (getPropD (.obj [(S "id", .num (S "1")),
      (S "path", .str (S "photos/x.jpg"))]) (S "path")) = true ∧
    getPropD (.obj [(S "id", .num (S "1")), (S "path", .str (S "photos/x.jpg")),
      (S "image_url", .null), (S "src", .null)]) (S "image_url") = .null ∧
    jvTruthy JVal.null = false :=
  ⟨rfl, rfl, rfl, rfl⟩

/-- C6 amended: on every successful gallery GET whose body parses to an
array of rows, the handler returns the rows with, attached under both
`image_url` and `src`, the value `image_url || src || null` of the raw row —
the raw `path`/`object_path` fields are never consulted and no further URL
resolution happens. -/
theorem galleryGet_attaches_image_url_and_src (env : Env) (cfg : GCfg)
    (ts : Nat) (listResp upResp insResp updResp getResp delResp : FetchResp)
    (rows out : List JVal)
    (hcfg : getCfgGallery env = some cfg)
    (hok : listResp.ok = true)
    (hrows : jsParse listResp.bodyText = some (.arr rows))
    (hmap : rows.mapM resolveGalleryRow = some out) :
    (netlifyGallery env ⟨S "GET", none, none, none⟩ ts
        listResp upResp insResp updResp getResp delResp).fst =
      jsonNetlify 200 (.arr out) ∧
    ∀ r r2, resolveGalleryRow r = some r2 →
      getPropD r2 (S "image_url") =
        jvOr (getPropD r (S "image_url")) (jvOr (getPropD r (S "src")) .null) ∧
      getPropD r2 (S "src") = getPropD r2 (S "image_url") := by
  constructor
  · have hev : netlifyGallery env ⟨S "GET", none, none, none⟩ ts
        listResp upResp insResp updResp getResp delResp =
        galleryListBranch cfg listResp := by
      simp only [netlifyGallery, hcfg]
      rw [if_neg (by decide), if_pos (by decide)]
    rw [hev]
    simp only [galleryListBranch, hok]
    rw [if_neg (by simp)]
    simp only [hrows, hmap]
  · exact fun r r2 h => resolveGalleryRow_fields r r2 h

/-- Witness for the amended C6 at a concrete row with a populated
`image_url`. -/
theorem galleryGet_attaches_image_url_and_src_witness :
    (netlifyGallery
        ⟨none, some (S "https://example.supabase.co"), none, some (S "key123"),
          none, none, none, none, none, none, none, none, none⟩
        ⟨S "GET", none, none, none⟩ 0
        ⟨true, 200, S "[\x7b\"id\":1,\"image_url\":\"u.png\"\x7d]"⟩
        ⟨true, 200, S "[]"⟩ ⟨true, 200, S "[]"⟩ ⟨true, 200, S "[]"⟩
        ⟨true, 200, S "[]"⟩ ⟨true, 200, S "[]"⟩).fst =
      jsonNetlify 200 (.arr [.obj [(S "id", .num (S "1")),
        (S "image_url", .str (S "u.png")),
        (S "image_url", .str (S "u.png")), (S "src", .str (S "u.png"))]]) ∧
    (getPropD (.obj [(S "id", .num (S "1")), (S "image_url", .str (S "u.png")),
        (S "image_url", .str (S "u.png")), (S "src", .str (S "u.png"))]) (S "image_url") =
      jvOr (getPropD (.obj [(S "id", .num (S "1")), (S "image_url", .str (S "u.png"))])
          (S "image_url"))
        (jvOr (getPropD (.obj [(S "id", .num (S "1")), (S "image_url", .str (S "u.png"))])
          (S "src")) .null) ∧
     getPropD (.obj [(S "id", .num (S "1")), (S "image_url", .str (S "u.png")),
        (S "image_url", .str (S "u.png")), (S "src", .str (S "u.png"))]) (S "src") =
      getPropD (.obj [(S "id", .num (S "1")), (S "image_url", .str (S "u.png")),
        (S "image_url", .str (S "u.png")), (S "src", .str (S "u.png"))]) (S "image_url")) := by
  have h := galleryGet_attaches_image_url_and_src
    ⟨none, some (S "https://example.supabase.co"), none, some (S "key123"),
      none, none, none, none, none, none, none, none, none⟩
    ⟨S "https://example.supabase.co", S "key123", S "photos", S "gallery"⟩ 0
    ⟨true, 200, S "[\x7b\"id\":1,\"image_url\":\"u.png\"\x7d]"⟩
    ⟨true, 200, S "[]"⟩ ⟨true, 200, S "[]"⟩ ⟨true, 200, S "[]"⟩
    ⟨true, 200, S "[]"⟩ ⟨true, 200, S "[]"⟩
    [.obj [(S "id", .num (S "1")), (S "image_url", .str (S "u.png"))]]
    [.obj [(S "id", .num (S "1")), (S "image_url", .str (S "u.png")),
      (S "image_url", .str (S "u.png")), (S "src", .str (S "u.png"))]]
    rfl rfl rfl rfl
  exact ⟨h.1, h.2 (.obj [(S "id", .num (S "1")), (S "image_url", .str (S "u.png"))])
    (.obj [(S "id", .num (S "1")), (S "image_url", .str (S "u.png")),
      (S "image_url", .str (S "u.png")), (S "src", .str (S "u.png"))]) rfl⟩

/-- C7: a part_000 journal PUT whose body has a truthy `id` but none of
`title`/`date`/`content` as strings answers 400 `No updatable fields
provided` and issues no external call at all. -/
theorem journalPut_no_updatable_fields_400 (env : Env) (cfg : JCfg)
    (bodyRaw : Option (List Char)) (nowIso : List Char)
    (listResp insResp updResp delResp : FetchResp) (b : JVal)
    (hcfg : getCfgJournal env = some cfg)
    (hparse : jsParse (orFalsy bodyRaw (S "\x7b\x7d")) = some b)
    (hid : jvTruthy (getPropD (jvOr b (.obj [])) (S "id")) = true)
    (ht : jvIsStr (getPropD b (S "title")) = false)
    (hd : jvIsStr (getPropD b (S "date")) = false)
    (hc : jvIsStr (getPropD b (S "content")) = false) :
    part000Journal env ⟨S "PUT", bodyRaw, none, none⟩ nowIso
        listResp insResp updResp delResp =
      (jsonNetlify 400 (.obj [(S "error", .str (S "No updatable fields provided"))]), []) := by
  have hev : part000Journal env ⟨S "PUT", bodyRaw, none, none⟩ nowIso
      listResp insResp updResp delResp =
      journalP0PutBranch cfg bodyRaw updResp := by
    simp only [part000Journal, hcfg]
    rw [if_neg (by decide), if_neg (by decide), if_neg (by decide), if_pos (by decide)]
  rw [hev]
  simp only [journalP0PutBranch, hparse]
  rw [if_neg (by simp [hid])]
  simp only [ht, hd, hc, Bool.false_eq_true, if_false, List.nil_append]
  rw [if_pos (by simp)]

/-- Witness for C7: the body `{id: 7}` alone. -/
theorem journalPut_no_updatable_fields_400_witness :
    part000Journal
        ⟨none, some (S "https://example.supabase.co"), none, some (S "key123"),
          none, none, none, none, none, none, none, none, none⟩
        ⟨S "PUT", some (S "\x7b\"id\":7\x7d"), none, none⟩ (S "2026-01-01T00:00:00.000Z")
        ⟨true, 200, S "[]"⟩ ⟨true, 200, S "[]"⟩ ⟨true, 200, S "[]"⟩ ⟨true, 200, S "[]"⟩ =
      (jsonNetlify 400 (.obj [(S "error", .str (S "No updatable fields provided"))]), []) :=
  journalPut_no_updatable_fields_400
    ⟨none, some (S "https://example.supabase.co"), none, some (S "key123"),
      none, none, none, none, none, none, none, none, none⟩
    ⟨S "https://example.supabase.co", S "key123", S "journal"⟩
    (some (S "\x7b\"id\":7\x7d")) (S "2026-01-01T00:00:00.000Z")
    ⟨true, 200, S "[]"⟩ ⟨true, 200, S "[]"⟩ ⟨true, 200, S "[]"⟩ ⟨true, 200, S "[]"⟩
    (.obj [(S "id", .num (S "7"))])
    rfl rfl rfl rfl rfl rfl

/-- C8: an update-site POST with the build hook configured and the admin
check passing issues the JSON-body hook call; when that response is ok no
second call is made and the result is built from it, and when it is non-ok
exactly one fallback call with no body follows and the result is built from
the fallback response; the reported status is 200 on an ok final response
and 502 otherwise. -/
theorem updateSite_single_retry (env : Env) (bodyRaw hdr1 hdr2 : Option (List Char))
    (resp1 resp2 : FetchResp)
    (hhook : optTruthy env.netlifyBuildHookUrl = true)
    (hadmin : adminRejected env.adminSecret ⟨S "POST", bodyRaw, hdr1, hdr2⟩ = false) :
    updateSite env ⟨S "POST", bodyRaw, hdr1, hdr2⟩ resp1 resp2 =
      (updateSiteFinish (if resp1.ok then resp1 else resp2),
        if resp1.ok then [Call.hookPost ((env.netlifyBuildHookUrl).getD []) true]
        else [Call.hookPost ((env.netlifyBuildHookUrl).getD []) true,
          Call.hookPost ((env.netlifyBuildHookUrl).getD []) false]) ∧
    (updateSiteFinish (if resp1.ok then resp1 else resp2)).statusCode =
      (if (if resp1.ok then resp1 else resp2).ok then 200 else 502) := by
  constructor
  · unfold updateSite
    rw [if_neg (show ¬ S "POST" = S "OPTIONS" by decide),
      if_neg (show ¬ S "POST" ≠ S "POST" by decide)]
    rw [if_neg (by simp [hhook]), if_neg (by simp [hadmin])]
    cases hr1 : resp1.ok <;> simp [hr1]
  · generalize (if resp1.ok then resp1 else resp2) = r
    unfold updateSiteFinish
    by_cases hf : r.ok = true
    · rw [if_neg (by simp [hf]), if_pos hf]
      rfl
    · rw [if_pos (by simpa using hf), if_neg hf]
      rfl

/-- Witness for C8: the JSON-body attempt is rejected, the no-body fallback
succeeds. -/
theorem updateSite_single_retry_witness :
    updateSite
        ⟨none, none, none, none, none, none, none, none, none, none,
          some (S "https://api.netlify.com/hooks/abc"), none, none⟩
        ⟨S "POST", none, none, none⟩ ⟨false, 404, S "Not Found"⟩ ⟨true, 200, S "ok"⟩ =
      (updateSiteFinish (if (false : Bool) then ⟨false, 404, S "Not Found"⟩
          else ⟨true, 200, S "ok"⟩),
        if (false : Bool) then
          [Call.hookPost (S "https://api.netlify.com/hooks/abc") true]
        else [Call.hookPost (S "https://api.netlify.com/hooks/abc") true,
          Call.hookPost (S "https://api.netlify.com/hooks/abc") false]) ∧
    (updateSiteFinish (if (false : Bool) then ⟨false, 404, S "Not Found"⟩
        else (⟨true, 200, S "ok"⟩ : FetchResp))).statusCode =
      (if (if (false : Bool) then ⟨false, 404, S "Not Found"⟩
          else (⟨true, 200, S "ok"⟩ : FetchResp)).ok then 200 else 502) :=
  updateSite_single_retry
    ⟨none, none, none, none, none, none, none, none, none, none,
      some (S "https://api.netlify.com/hooks/abc"), none, none⟩
    none none none ⟨false, 404, S "Not Found"⟩ ⟨true, 200, S "ok"⟩ rfl rfl

/-- C9 counterexample: the auth-check handler (a supabase-client legacy
variant the claim itself cites) answers OPTIONS with status 200, not 204. -/
theorem options_not_universally_204_counterexample :
    (authCheck ⟨none, none, none, none, none, none, none, none, none, none, none, none, none⟩
        ⟨S "OPTIONS", none, none, none⟩).fst.statusCode = 200 ∧
    (200 : Nat) ≠ 204 :=
  ⟨rfl, by decide⟩

/-- C9 amended: every handler answers OPTIONS immediately with an empty raw
body, only its CORS headers and an empty call trace, independent of the
environment, body and external responses (so before any configuration read
or external call); the fetch-based handlers (gallery, the three journal
variants, update-site) use status 204 while the supabase-client legacy
handlers (legacy gallery, legacy journal, upload, auth-check) use 200. -/
theorem options_shortcircuit_all_handlers (env : Env)
    (bodyRaw h1 h2 : Option (List Char)) (ts : Nat) (nowIso : List Char)
    (r1 r2 r3 r4 r5 r6 : FetchResp) (s1 s2 s3 s4 s5 : SBRes) :
    netlifyGallery env ⟨S "OPTIONS", bodyRaw, h1, h2⟩ ts r1 r2 r3 r4 r5 r6 =
      (⟨204, corsNetlify, .raw []⟩, []) ∧
    part000Journal env ⟨S "OPTIONS", bodyRaw, h1, h2⟩ nowIso r1 r2 r3 r4 =
      (⟨204, corsNetlify, .raw []⟩, []) ∧
    journalJsHandler env ⟨S "OPTIONS", bodyRaw, h1, h2⟩ nowIso r1 r2 r3 r4 =
      (⟨204, corsNetlify, .raw []⟩, []) ∧
    journalGxHandler env ⟨S "OPTIONS", bodyRaw, h1, h2⟩ r1 r2 r3 r4 =
      (⟨204, corsNetlify, .raw []⟩, []) ∧
    updateSite env ⟨S "OPTIONS", bodyRaw, h1, h2⟩ r1 r2 =
      (⟨204, corsUpdateSite, .raw []⟩, []) ∧
    legacyGallery ⟨S "OPTIONS", bodyRaw, h1, h2⟩ s1 s2 s3 s4 s5 =
      (⟨200, corsLegacyAll, .raw []⟩, []) ∧
    legacyJournal ⟨S "OPTIONS", bodyRaw, h1, h2⟩ s1 s2 s3 s4 =
      (⟨200, corsLegacyAll, .raw []⟩, []) ∧
    uploadHandler env ⟨S "OPTIONS", bodyRaw, h1, h2⟩ ts s1 s2 =
      (⟨200, corsLegacyPost, .raw []⟩, []) ∧
    authCheck env ⟨S "OPTIONS", bodyRaw, h1, h2⟩ =
      (⟨200, corsLegacyPost, .raw []⟩, []) :=
  ⟨rfl, rfl, rfl, rfl, rfl, rfl, rfl, rfl, rfl⟩

/-- C10 counterexample: the body `null` parses as JSON, and with
`ADMIN_PASSWORD` unset the claim demands success (`undefined === undefined`),
but destructuring `null` throws, so the handler answers 500 — neither the
claimed 200 nor 401. -/
theorem authCheck_null_body_counterexample :
    jsParse (S "null") = some .null ∧
    (authCheck ⟨none, none, none, none, none, none, none, none, none, none, none, none, none⟩
        ⟨S "POST", some (S "null"), none, none⟩).fst.statusCode = 500 ∧
    (500 : Nat) ≠ 200 ∧ (500 : Nat) ≠ 401 :=
  ⟨rfl, rfl, by decide, by decide⟩

/-- C10 amended: for every auth-check POST whose body parses as JSON to a
non-`null` value, the handler returns 200 `{success:true}` exactly when the
submitted password is strictly equal to the `ADMIN_PASSWORD` environment
value and 401 `{success:false}` otherwise, issuing no external call; in
particular, when the variable is unset and the password field is absent,
both sides are `undefined` and the handler reports success. -/
theorem authCheck_strict_equality (env : Env) (bodyRaw : List Char) (v : JVal)
    (hparse : jsParse bodyRaw = some v)
    (hnull : jvIsNull v = false) :
    authCheck env ⟨S "POST", some bodyRaw, none, none⟩ =
      ((if envStrictEq (getPropD v (S "password")) env.adminPassword then
          jsonLegacyPost 200 (.obj [(S "success", .bool true),
            (S "message", .str (S "Authentication successful"))])
        else
          jsonLegacyPost 401 (.obj [(S "success", .bool false),
            (S "message", .str (S "Invalid password"))])), []) ∧
    (env.adminPassword = none → getPropD v (S "password") = .undefined →
      (authCheck env ⟨S "POST", some bodyRaw, none, none⟩).fst.statusCode = 200) := by
  have hev : authCheck env ⟨S "POST", some bodyRaw, none, none⟩ =
      ((if envStrictEq (getPropD v (S "password")) env.adminPassword then
          jsonLegacyPost 200 (.obj [(S "success", .bool true),
            (S "message", .str (S "Authentication successful"))])
        else
          jsonLegacyPost 401 (.obj [(S "success", .bool false),
            (S "message", .str (S "Invalid password"))])), []) := by
    unfold authCheck
    rw [if_neg (show ¬ S "POST" = S "OPTIONS" by decide),
      if_neg (show ¬ S "POST" ≠ S "POST" by decide)]
    simp only [hparse]
    rw [if_neg (by simp [hnull])]
    by_cases he : envStrictEq (getPropD v (S "password")) env.adminPassword = true
    · rw [if_pos he, if_pos he]
    · rw [if_neg he, if_neg he]
  refine ⟨hev, fun hp hpw => ?_⟩
  rw [hev, hpw, hp, if_pos (show envStrictEq .undefined none = true from rfl)]
  rfl

/-- Witness for the amended C10: empty JSON body and unset `ADMIN_PASSWORD`
— both sides `undefined`, so the handler reports success. -/
theorem authCheck_strict_equality_witness :
    authCheck ⟨none, none, none, none, none, none, none, none, none, none, none, none, none⟩
        ⟨S "POST", some (S "\x7b\x7d"), none, none⟩ =
      ((if envStrictEq (getPropD (JVal.obj []) (S "password")) none then
          jsonLegacyPost 200 (.obj [(S "success", .bool true),
            (S "message", .str (S "Authentication successful"))])
        else
          jsonLegacyPost 401 (.obj [(S "success", .bool false),
            (S "message", .str (S "Invalid password"))])), []) ∧
    (authCheck ⟨none, none, none, none, none, none, none, none, none, none, none, none, none⟩
        ⟨S "POST", some (S "\x7b\x7d"), none, none⟩).fst.statusCode = 200 := by
  have h := authCheck_strict_equality
    ⟨none, none, none, none, none, none, none, none, none, none, none, none, none⟩
    (S "\x7b\x7d") (.obj []) rfl rfl
  exact ⟨h.1, h.2 rfl rfl⟩
